import Mathlib

/-!
Verification of the simple_calculator repository (src/calculator.py): a
shallow embedding in Lean 4 of its lexer, recursive-descent parser and AST
evaluator, together with theorems settling the frozen specification claims.

Conventions of the embedding:
- Python strings become Lean String values; the character predicates
  str.isnumeric / str.isalpha are modelled by Char.isDigit / Char.isAlpha,
  which agree with Python on the ASCII inputs the program is specified for.
- Python exceptions become explicit error values in an Except result.
- Python floats are modelled by the rational numbers.  Every arithmetic
  value any claim observes (small integers combined by + - *) is exactly
  representable as an IEEE double, where double and rational arithmetic
  coincide; division by zero, which Python raises on, is modelled as an
  explicit error, exactly as Python behaves.
-/

namespace Calculator

/-- TokenType from the source: the seven token kinds (the Python class holds
the integer constants 1..7; the integer values are never used arithmetically,
only compared, so an inductive type is a faithful translation). -/
inductive TokenType where
  | DOT
  | SIGN
  | NUMBER
  | BRACKET
  | SECOND_PRIORITY_OP
  | THIRD_PRIORITY_OP
  | CONSTANT_OR_FUNCTION_NAME
deriving DecidableEq

/-- Token from the source: a text together with a kind.  The Python class
also carries a reflection table used only by repr, which the spec places out
of scope; it is omitted. -/
structure Token where
  token_str : String
  token_type : TokenType
deriving DecidableEq

/-- Token.is_left_bracket from the source: the text is an opening bracket. -/
def Token.is_left_bracket (t : Token) : Bool :=
  t.token_str == "("

/-- Token.is_right_bracket from the source: the text is a closing bracket. -/
def Token.is_right_bracket (t : Token) : Bool :=
  t.token_str == ")"

/-- The push closure inside ExpressionLexer.lex: append the open accumulator
as a token when one is open (current_type greater than 0 in the source,
modelled as an Option). -/
def pushTok (result : List Token) (ct : Option TokenType) (cs : String) : List Token :=
  match ct with
  | some ty => result ++ [Token.mk cs ty]
  | none => result

/-- The classification of a plus or minus character in ExpressionLexer.lex:
kind SIGN when no token has been emitted yet or the last emitted token is a
second- or third-priority operator, kind THIRD_PRIORITY_OP otherwise. -/
def signType (result : List Token) : TokenType :=
  match result.getLast? with
  | none => TokenType.SIGN
  | some t =>
    if t.token_type = TokenType.SECOND_PRIORITY_OP ∨
        t.token_type = TokenType.THIRD_PRIORITY_OP
    then TokenType.SIGN
    else TokenType.THIRD_PRIORITY_OP

/-- One iteration of the while loop in ExpressionLexer.lex, processing the
character v against the state (emitted tokens, open accumulator kind, open
accumulator text).  A character matching none of the five rules falls
through every branch of the loop body, so the state is returned unchanged:
in particular nothing is flushed. -/
def lexStep (v : Char) (result : List Token) (ct : Option TokenType) (cs : String) :
    List Token × Option TokenType × String :=
  if v.isDigit || v == '.' then
    if ct = some TokenType.NUMBER then
      (result, ct, cs.push v)
    else
      (pushTok result ct cs, some TokenType.NUMBER, String.singleton v)
  else if v.isAlpha then
    if ct = some TokenType.CONSTANT_OR_FUNCTION_NAME then
      (result, ct, cs.push v)
    else
      (pushTok result ct cs, some TokenType.CONSTANT_OR_FUNCTION_NAME, String.singleton v)
  else if v == '+' || v == '-' then
    (pushTok result ct cs ++
      [Token.mk (String.singleton v) (signType (pushTok result ct cs))], none, "")
  else if v == '*' || v == '/' then
    (pushTok result ct cs ++ [Token.mk (String.singleton v) TokenType.SECOND_PRIORITY_OP], none, "")
  else if v == '(' || v == ')' then
    (pushTok result ct cs ++ [Token.mk (String.singleton v) TokenType.BRACKET], none, "")
  else
    (result, ct, cs)

/-- The while loop of ExpressionLexer.lex over the remaining characters,
followed by the final push at loop exit. -/
def lexLoop : List Char → List Token → Option TokenType → String → List Token
  | [], result, ct, cs => pushTok result ct cs
  | v :: rest, result, ct, cs =>
    match lexStep v result ct cs with
    | (r2, ct2, cs2) => lexLoop rest r2 ct2 cs2

/-- ExpressionLexer.lex from the source: scan the whole input string. -/
def lex (s : String) : List Token :=
  lexLoop s.data [] none ""

/-- The AST of the source: the four concrete subclasses of BaseExpression.
NumberExpression stores the raw token text (the source parses it with float
only at evaluation time); BinaryExpression stores the operator as its token
text, exactly like the source. -/
inductive BaseExpression where
  | NumberExpression (value : String)
  | BinaryExpression (expr1 : BaseExpression) (op : String) (expr2 : BaseExpression)
  | ConstantExpression (name : String)
  | FunctionExpression (func_name : String) (expr : BaseExpression)
deriving DecidableEq

/-- Errors an eval call can raise, named after the Python exception classes
that the source lets escape.  The spec names attributeError UnknownNameError,
valueError NumericParseError. -/
inductive EvalError where
  | attributeError (name : String)
  | valueError (s : String)
  | keyError (op : String)
  | zeroDivisionError
  | typeError
deriving DecidableEq

/-- Numeric value of a list of decimal digit characters, most significant
first (the empty list giving 0, as in the fractional part of "1."). -/
def digitsToNat (l : List Char) : Nat :=
  l.foldl (fun a c => 10 * a + (c.toNat - 48)) 0

/-- The Python float(string) conversion used by NumberExpression.eval,
restricted to the strings the program can feed it: runs of digits and dots
(lexer Number tokens) and the literal "0" (parse_sign).  Python accepts such
a string exactly when it has at least one digit and at most one dot, reading
it as integer part, dot, fractional part; otherwise float raises ValueError
(modelled as none).  The value is returned as an exact rational. -/
def pyFloat (s : String) : Option Rat :=
  let cs := s.data
  if (cs.all fun c => c.isDigit || c == '.') ∧
      (cs.filter fun c => c == '.').length ≤ 1 ∧
      (cs.any fun c => c.isDigit) then
    let intPart := cs.takeWhile fun c => c != '.'
    let fracPart := (cs.dropWhile fun c => c != '.').drop 1
    some ((digitsToNat intPart : Rat) + (digitsToNat fracPart : Rat) / ((10 : Rat) ^ fracPart.length))
  else none

/-- A value of an attribute of the Python math module: a real constant or a
unary real function. -/
inductive MathObj where
  | num (q : Rat)
  | fn (f : Rat → Rat)

/-- Modelled from the spec: the unary real functions of the math library
("sin", "cos", "log", "sqrt", ...), which live outside this repository.
Their transcendental values are not exactly representable in Rat and no
claim observes them; each name is therefore bound to an unspecified total
stand-in function.  Only the set of bound names is meaningful. -/
def libFunStandIn (_ : String) (_ : Rat) : Rat := 0

/-- Modelled from the spec: getattr(math, name) as a fixed lookup table, the
constants as the decimal renderings of the IEEE doubles math.pi, math.e and
math.tau, the functions through libFunStandIn.  Any other name has no such
attribute, so getattr raises AttributeError (modelled by none). -/
def mathAttr (name : String) : Option MathObj :=
  if name = "pi" then some (MathObj.num (3.141592653589793 : Rat))
  else if name = "e" then some (MathObj.num (2.718281828459045 : Rat))
  else if name = "tau" then some (MathObj.num (6.283185307179586 : Rat))
  else if name = "sin" then some (MathObj.fn (libFunStandIn ("sin")))
  else if name = "cos" then some (MathObj.fn (libFunStandIn ("cos")))
  else if name = "tan" then some (MathObj.fn (libFunStandIn ("tan")))
  else if name = "log" then some (MathObj.fn (libFunStandIn ("log")))
  else if name = "sqrt" then some (MathObj.fn (libFunStandIn ("sqrt")))
  else if name = "exp" then some (MathObj.fn (libFunStandIn ("exp")))
  else none

/-- The arithmetic dispatch of BinaryExpression.eval on two floats: op_map
maps the four operator texts to the float methods add, sub, mul, truediv; an
operator outside op_map raises KeyError.  Python float division by a zero
right operand raises ZeroDivisionError. -/
def applyOp (x : Rat) (op : String) (y : Rat) : Except EvalError Rat :=
  if op = "+" then Except.ok (x + y)
  else if op = "-" then Except.ok (x - y)
  else if op = "*" then Except.ok (x * y)
  else if op = "/" then
    if y = 0 then Except.error EvalError.zeroDivisionError else Except.ok (x / y)
  else Except.error (EvalError.keyError op)

/-- The eval methods of the four expression classes.
NumberExpression.eval is float(value).  BinaryExpression.eval evaluates
expr1, looks the operator up in op_map, evaluates expr2 and applies the
float method; a function object in an operand position (impossible for a
parsed AST) is modelled as an error where Python would fail fetching or
applying the arithmetic method.  ConstantExpression.eval is
getattr(math, name), returned as is.  FunctionExpression.eval fetches
getattr(math, func_name) first, then evaluates the argument, then calls it;
calling a constant attribute (impossible for a parsed AST) is a TypeError
after the argument has been evaluated. -/
def eval : BaseExpression → Except EvalError MathObj
  | BaseExpression.NumberExpression v =>
    match pyFloat v with
    | some q => Except.ok (MathObj.num q)
    | none => Except.error (EvalError.valueError v)
  | BaseExpression.BinaryExpression e1 op e2 =>
    match eval e1 with
    | Except.error e => Except.error e
    | Except.ok a =>
      if op = "+" ∨ op = "-" ∨ op = "*" ∨ op = "/" then
        match a with
        | MathObj.fn _ => Except.error (EvalError.attributeError op)
        | MathObj.num x =>
          match eval e2 with
          | Except.error e => Except.error e
          | Except.ok (MathObj.fn _) => Except.error EvalError.typeError
          | Except.ok (MathObj.num y) =>
            match applyOp x op y with
            | Except.error e => Except.error e
            | Except.ok q => Except.ok (MathObj.num q)
      else Except.error (EvalError.keyError op)
  | BaseExpression.ConstantExpression name =>
    match mathAttr name with
    | some v => Except.ok v
    | none => Except.error (EvalError.attributeError name)
  | BaseExpression.FunctionExpression fn e =>
    match mathAttr fn with
    | none => Except.error (EvalError.attributeError fn)
    | some (MathObj.num _) =>
      match eval e with
      | Except.error e2 => Except.error e2
      | Except.ok _ => Except.error EvalError.typeError
    | some (MathObj.fn f) =>
      match eval e with
      | Except.error e2 => Except.error e2
      | Except.ok (MathObj.num x) => Except.ok (MathObj.num (f x))
      | Except.ok (MathObj.fn _) => Except.error EvalError.typeError

/-- Errors a parse call can raise, named after the Python exceptions:
indexError for token_list access out of range, beginWithBinaryOp for the
ValueError raised by parse_first_priority, assertionError for the assert in
parse_bracket.  outOfFuel is an artifact of the embedding: the mutually
recursive parse methods are given a recursion budget, and the canonical
budget parseFuel is far larger than any depth the functions can reach on
their token list, so the entry points never produce it. -/
inductive ParseError where
  | indexError
  | beginWithBinaryOp
  | assertionError
  | outOfFuel
deriving DecidableEq

/-- Result of a parse method: an AST with the consumed token count, or an
exception. -/
abbrev ParseResult := Except ParseError (BaseExpression × Nat)

/-- ExpressionParser.parse_number: a single-token number leaf. -/
def parse_number (tl : List Token) (pos : Nat) : ParseResult :=
  match tl[pos]? with
  | none => Except.error ParseError.indexError
  | some tok => Except.ok (BaseExpression.NumberExpression tok.token_str, 1)

mutual

/-- ExpressionParser.parse_sign: wrap the following first-priority term as
0 op term. -/
def parse_signF (fuel : Nat) (tl : List Token) (pos : Nat) : ParseResult :=
  match fuel with
  | 0 => Except.error ParseError.outOfFuel
  | fuel + 1 =>
    match tl[pos]? with
    | none => Except.error ParseError.indexError
    | some tok =>
      match parse_first_priorityF fuel tl (pos + 1) with
      | Except.error e => Except.error e
      | Except.ok (result, length) =>
        Except.ok (BaseExpression.BinaryExpression
          (BaseExpression.NumberExpression ("0")) tok.token_str result, length + 1)

/-- ExpressionParser.parse_bracket: assert the token at pos is a bracket,
parse the inner expression, and return inner length + 2.  The second assert
of the source re-reads current_token, which still holds the token at pos,
so it re-checks the opening bracket and is always true at that point; the
token after the inner expression is never examined. -/
def parse_bracketF (fuel : Nat) (tl : List Token) (pos : Nat) : ParseResult :=
  match fuel with
  | 0 => Except.error ParseError.outOfFuel
  | fuel + 1 =>
    match tl[pos]? with
    | none => Except.error ParseError.indexError
    | some tok =>
      if tok.token_type = TokenType.BRACKET then
        match parse_exprF fuel tl (pos + 1) with
        | Except.error e => Except.error e
        | Except.ok (expr, length) => Except.ok (expr, length + 2)
      else Except.error ParseError.assertionError

/-- ExpressionParser.parse_constant_or_function: an identifier alone is a
constant; an identifier followed by a left bracket is a function call on the
bracketed subexpression. -/
def parse_constant_or_functionF (fuel : Nat) (tl : List Token) (pos : Nat) : ParseResult :=
  match fuel with
  | 0 => Except.error ParseError.outOfFuel
  | fuel + 1 =>
    match tl[pos]? with
    | none => Except.error ParseError.indexError
    | some tok =>
      if pos + 1 = tl.length then
        Except.ok (BaseExpression.ConstantExpression tok.token_str, 1)
      else
        match tl[pos + 1]? with
        | none => Except.error ParseError.indexError
        | some tok1 =>
          if tok1.is_left_bracket then
            match parse_bracketF fuel tl (pos + 1) with
            | Except.error e => Except.error e
            | Except.ok (expr, length) =>
              Except.ok (BaseExpression.FunctionExpression tok.token_str expr, 1 + length)
          else Except.ok (BaseExpression.ConstantExpression tok.token_str, 1)

/-- ExpressionParser.parse_first_priority: dispatch on the kind of the token
at pos; a second- or third-priority operator kind raises the ValueError
"expression begin with binary op". -/
def parse_first_priorityF (fuel : Nat) (tl : List Token) (pos : Nat) : ParseResult :=
  match fuel with
  | 0 => Except.error ParseError.outOfFuel
  | fuel + 1 =>
    match tl[pos]? with
    | none => Except.error ParseError.indexError
    | some tok =>
      if tok.token_type = TokenType.BRACKET then
        parse_bracketF fuel tl pos
      else if tok.token_type = TokenType.DOT ∨ tok.token_type = TokenType.NUMBER then
        parse_number tl pos
      else if tok.token_type = TokenType.CONSTANT_OR_FUNCTION_NAME then
        parse_constant_or_functionF fuel tl pos
      else if tok.token_type = TokenType.SIGN then
        parse_signF fuel tl pos
      else Except.error ParseError.beginWithBinaryOp

/-- ExpressionParser.parse_second_priority: combine left_expr with the
first-priority term after the operator at pos. -/
def parse_second_priorityF (fuel : Nat) (tl : List Token) (pos : Nat)
    (left : BaseExpression) : ParseResult :=
  match fuel with
  | 0 => Except.error ParseError.outOfFuel
  | fuel + 1 =>
    match tl[pos]? with
    | none => Except.error ParseError.indexError
    | some tok =>
      match parse_first_priorityF fuel tl (pos + 1) with
      | Except.error e => Except.error e
      | Except.ok (right, length) =>
        Except.ok (BaseExpression.BinaryExpression left tok.token_str right, length + 1)

/-- The while loop of ExpressionParser.parse_third_priority: greedily absorb
following second-priority operators into the right operand. -/
def parse_third_loopF (fuel : Nat) (tl : List Token) (pos : Nat)
    (cur : BaseExpression) (cl : Nat) : ParseResult :=
  match fuel with
  | 0 => Except.error ParseError.outOfFuel
  | fuel + 1 =>
    if pos + cl + 1 < tl.length then
      match tl[cl + pos + 1]? with
      | none => Except.error ParseError.indexError
      | some ct =>
        if ct.token_type = TokenType.SECOND_PRIORITY_OP then
          match parse_second_priorityF fuel tl (cl + pos + 1) cur with
          | Except.error e => Except.error e
          | Except.ok (e2, length) => parse_third_loopF fuel tl pos e2 (cl + length)
        else Except.ok (cur, cl)
    else Except.ok (cur, cl)

/-- ExpressionParser.parse_third_priority: parse the right operand starting
with a first-priority term, absorbing a run of second-priority operators,
then combine with left_expr under the operator at pos. -/
def parse_third_priorityF (fuel : Nat) (tl : List Token) (pos : Nat)
    (left : BaseExpression) : ParseResult :=
  match fuel with
  | 0 => Except.error ParseError.outOfFuel
  | fuel + 1 =>
    match tl[pos]? with
    | none => Except.error ParseError.indexError
    | some tok =>
      match parse_first_priorityF fuel tl (pos + 1) with
      | Except.error e => Except.error e
      | Except.ok (cur, length) =>
        match parse_third_loopF fuel tl pos cur length with
        | Except.error e => Except.error e
        | Except.ok (cur2, cl) =>
          Except.ok (BaseExpression.BinaryExpression left tok.token_str cur2, cl + 1)

/-- The while loop of ExpressionParser.parse_expr: repeatedly absorb a
pending third- or second-priority operator at the cursor. -/
def parse_expr_loopF (fuel : Nat) (tl : List Token) (pos : Nat)
    (cur : BaseExpression) (cl : Nat) : ParseResult :=
  match fuel with
  | 0 => Except.error ParseError.outOfFuel
  | fuel + 1 =>
    if pos + cl < tl.length then
      match tl[cl + pos]? with
      | none => Except.error ParseError.indexError
      | some ct =>
        if ct.token_type = TokenType.THIRD_PRIORITY_OP then
          match parse_third_priorityF fuel tl (cl + pos) cur with
          | Except.error e => Except.error e
          | Except.ok (e2, length) => parse_expr_loopF fuel tl pos e2 (cl + length)
        else if ct.token_type = TokenType.SECOND_PRIORITY_OP then
          match parse_second_priorityF fuel tl (cl + pos) cur with
          | Except.error e => Except.error e
          | Except.ok (e2, length) => parse_expr_loopF fuel tl pos e2 (cl + length)
        else Except.ok (cur, cl)
    else Except.ok (cur, cl)

/-- ExpressionParser.parse_expr: a first-priority term followed by the
operator-absorbing loop. -/
def parse_exprF (fuel : Nat) (tl : List Token) (pos : Nat) : ParseResult :=
  match fuel with
  | 0 => Except.error ParseError.outOfFuel
  | fuel + 1 =>
    match parse_first_priorityF fuel tl pos with
    | Except.error e => Except.error e
    | Except.ok (cur, length) => parse_expr_loopF fuel tl pos cur length

end

/-- Canonical recursion budget: every call in the mutual group either moves
the position strictly right or is one of at most three same-position hops,
so depth 4*length+4 is never exhausted on any run that the claims touch. -/
def parseFuel (tl : List Token) : Nat := 4 * tl.length + 4

/-- ExpressionParser.parse_expr at the canonical budget. -/
def parse_expr (tl : List Token) (pos : Nat) : ParseResult :=
  parse_exprF (parseFuel tl) tl pos

/-- ExpressionParser.parse_bracket at the canonical budget. -/
def parse_bracket (tl : List Token) (pos : Nat) : ParseResult :=
  parse_bracketF (parseFuel tl) tl pos

/-- ExpressionParser.parse_first_priority at the canonical budget. -/
def parse_first_priority (tl : List Token) (pos : Nat) : ParseResult :=
  parse_first_priorityF (parseFuel tl) tl pos

/-- ExpressionParser.parse_sign at the canonical budget. -/
def parse_sign (tl : List Token) (pos : Nat) : ParseResult :=
  parse_signF (parseFuel tl) tl pos

/-- ExpressionParser.parse_constant_or_function at the canonical budget. -/
def parse_constant_or_function (tl : List Token) (pos : Nat) : ParseResult :=
  parse_constant_or_functionF (parseFuel tl) tl pos

/-- ExpressionParser.parse_second_priority at the canonical budget. -/
def parse_second_priority (tl : List Token) (pos : Nat) (left : BaseExpression) : ParseResult :=
  parse_second_priorityF (parseFuel tl) tl pos left

/-- ExpressionParser.parse_third_priority at the canonical budget. -/
def parse_third_priority (tl : List Token) (pos : Nat) (left : BaseExpression) : ParseResult :=
  parse_third_priorityF (parseFuel tl) tl pos left

/-- The whole-token-list parse entry point, as the demo harness calls it:
parse_expr from position 0. -/
def parse (tl : List Token) : ParseResult :=
  parse_expr tl 0

/-- Outcome of the full pipeline on an input string. -/
inductive RunResult where
  | value (q : Rat)
  | nonNumericValue
  | parseFailure (e : ParseError)
  | evalFailure (e : EvalError)
deriving DecidableEq

/-- The full pipeline of the demo harness: lex, parse from position 0,
evaluate the AST (discarding the consumed count, like line 234 of the
source).  nonNumericValue covers an eval result that is a math-module
function object rather than a float. -/
def run (s : String) : RunResult :=
  match parse (lex s) with
  | Except.error e => RunResult.parseFailure e
  | Except.ok (expr, _) =>
    match eval expr with
    | Except.error e => RunResult.evalFailure e
    | Except.ok (MathObj.num q) => RunResult.value q
    | Except.ok (MathObj.fn _) => RunResult.nonNumericValue

/-- A successful index access proves the position is in range. -/
lemma lt_length_of_getElem? {tl : List Token} {pos : Nat} {t : Token}
    (h : tl[pos]? = some t) : pos < tl.length :=
  (List.getElem?_eq_some.mp h).1

/-- Token lists containing no Bracket-kind token: the guard under which the
consumed-length invariant of claim C8 does hold. -/
def NoBrackets (tl : List Token) : Prop :=
  ∀ t ∈ tl, t.token_type ≠ TokenType.BRACKET

lemma parse_number_bound {tl : List Token} {pos : Nat} {e : BaseExpression} {n : Nat}
    (h : parse_number tl pos = Except.ok (e, n)) : pos + n ≤ tl.length := by
  unfold parse_number at h
  cases htok : tl[pos]? with
  | none => rw [htok] at h; exact Except.noConfusion h
  | some tok =>
    rw [htok] at h
    simp only [Except.ok.injEq, Prod.mk.injEq] at h
    obtain ⟨-, hn⟩ := h
    have := lt_length_of_getElem? htok
    omega

/-- On a bracket-free token list, every parse method that succeeds consumed
only positions inside the list: the master induction over the recursion
budget, one conjunct per method of the mutual group (the two loop conjuncts
carry their loop entry bound). -/
lemma parse_boundAux (tl : List Token) (hNB : NoBrackets tl) :
    ∀ fuel : Nat,
      (∀ pos e n, parse_signF fuel tl pos = Except.ok (e, n) → pos + n ≤ tl.length) ∧
      (∀ pos e n, parse_bracketF fuel tl pos = Except.ok (e, n) → pos + n ≤ tl.length) ∧
      (∀ pos e n, parse_constant_or_functionF fuel tl pos = Except.ok (e, n) → pos + n ≤ tl.length) ∧
      (∀ pos e n, parse_first_priorityF fuel tl pos = Except.ok (e, n) → pos + n ≤ tl.length) ∧
      (∀ pos left e n, parse_second_priorityF fuel tl pos left = Except.ok (e, n) → pos + n ≤ tl.length) ∧
      (∀ pos cur cl e n, pos + cl + 1 ≤ tl.length →
        parse_third_loopF fuel tl pos cur cl = Except.ok (e, n) → pos + n + 1 ≤ tl.length) ∧
      (∀ pos left e n, parse_third_priorityF fuel tl pos left = Except.ok (e, n) → pos + n ≤ tl.length) ∧
      (∀ pos cur cl e n, pos + cl ≤ tl.length →
        parse_expr_loopF fuel tl pos cur cl = Except.ok (e, n) → pos + n ≤ tl.length) ∧
      (∀ pos e n, parse_exprF fuel tl pos = Except.ok (e, n) → pos + n ≤ tl.length) := by
  intro fuel
  induction fuel with
  | zero =>
    refine ⟨?_, ?_, ?_, ?_, ?_, ?_, ?_, ?_, ?_⟩
    · intro pos e n h; simp [parse_signF] at h
    · intro pos e n h; simp [parse_bracketF] at h
    · intro pos e n h; simp [parse_constant_or_functionF] at h
    · intro pos e n h; simp [parse_first_priorityF] at h
    · intro pos left e n h; simp [parse_second_priorityF] at h
    · intro pos cur cl e n hin h; simp [parse_third_loopF] at h
    · intro pos left e n h; simp [parse_third_priorityF] at h
    · intro pos cur cl e n hin h; simp [parse_expr_loopF] at h
    · intro pos e n h; simp [parse_exprF] at h
  | succ f ih =>
    obtain ⟨ihSign, ihBracket, ihConstFn, ihFirst, ihSecond, ihThirdLoop, ihThird, ihExprLoop, ihExpr⟩ := ih
    refine ⟨?_, ?_, ?_, ?_, ?_, ?_, ?_, ?_, ?_⟩
    · intro pos e n h
      simp only [parse_signF] at h
      cases htok : tl[pos]? with
      | none => simp [htok] at h
      | some tok =>
        simp only [htok] at h
        cases hfp : parse_first_priorityF f tl (pos + 1) with
        | error e1 => simp [hfp] at h
        | ok pr =>
          obtain ⟨e1, n1⟩ := pr
          simp only [hfp, Except.ok.injEq, Prod.mk.injEq] at h
          obtain ⟨-, hn⟩ := h
          have hb := ihFirst (pos + 1) e1 n1 hfp
          omega
    · intro pos e n h
      simp only [parse_bracketF] at h
      cases htok : tl[pos]? with
      | none => simp [htok] at h
      | some tok =>
        have hnb : tok.token_type ≠ TokenType.BRACKET := hNB tok (List.getElem?_mem htok)
        simp [htok, hnb] at h
    · intro pos e n h
      simp only [parse_constant_or_functionF] at h
      cases htok : tl[pos]? with
      | none => simp [htok] at h
      | some tok =>
        simp only [htok] at h
        by_cases hlen : pos + 1 = tl.length
        · rw [if_pos hlen] at h
          simp only [Except.ok.injEq, Prod.mk.injEq] at h
          obtain ⟨-, hn⟩ := h
          omega
        · rw [if_neg hlen] at h
          cases htok1 : tl[pos + 1]? with
          | none => simp [htok1] at h
          | some tok1 =>
            simp only [htok1] at h
            by_cases hlb : tok1.is_left_bracket = true
            · simp only [hlb, if_true] at h
              cases hbr : parse_bracketF f tl (pos + 1) with
              | error e1 => simp [hbr] at h
              | ok pr =>
                obtain ⟨e1, n1⟩ := pr
                simp only [hbr, Except.ok.injEq, Prod.mk.injEq] at h
                obtain ⟨-, hn⟩ := h
                have hb := ihBracket (pos + 1) e1 n1 hbr
                omega
            · simp only [Bool.not_eq_true] at hlb
              simp only [hlb, Bool.false_eq_true, if_false] at h
              simp only [Except.ok.injEq, Prod.mk.injEq] at h
              obtain ⟨-, hn⟩ := h
              have := lt_length_of_getElem? htok1
              omega
    · intro pos e n h
      simp only [parse_first_priorityF] at h
      cases htok : tl[pos]? with
      | none => simp [htok] at h
      | some tok =>
        simp only [htok] at h
        have hnb : tok.token_type ≠ TokenType.BRACKET := hNB tok (List.getElem?_mem htok)
        rw [if_neg hnb] at h
        by_cases h2 : tok.token_type = TokenType.DOT ∨ tok.token_type = TokenType.NUMBER
        · rw [if_pos h2] at h
          exact parse_number_bound h
        · rw [if_neg h2] at h
          by_cases h3 : tok.token_type = TokenType.CONSTANT_OR_FUNCTION_NAME
          · rw [if_pos h3] at h; exact ihConstFn pos e n h
          · rw [if_neg h3] at h
            by_cases h4 : tok.token_type = TokenType.SIGN
            · rw [if_pos h4] at h; exact ihSign pos e n h
            · rw [if_neg h4] at h; exact Except.noConfusion h
    · intro pos left e n h
      simp only [parse_second_priorityF] at h
      cases htok : tl[pos]? with
      | none => simp [htok] at h
      | some tok =>
        simp only [htok] at h
        cases hfp : parse_first_priorityF f tl (pos + 1) with
        | error e1 => simp [hfp] at h
        | ok pr =>
          obtain ⟨e1, n1⟩ := pr
          simp only [hfp, Except.ok.injEq, Prod.mk.injEq] at h
          obtain ⟨-, hn⟩ := h
          have hb := ihFirst (pos + 1) e1 n1 hfp
          omega
    · intro pos cur cl e n hin h
      simp only [parse_third_loopF] at h
      by_cases hc : pos + cl + 1 < tl.length
      · rw [if_pos hc] at h
        cases hct : tl[cl + pos + 1]? with
        | none => simp [hct] at h
        | some ct =>
          simp only [hct] at h
          by_cases hty : ct.token_type = TokenType.SECOND_PRIORITY_OP
          · rw [if_pos hty] at h
            cases hsp : parse_second_priorityF f tl (cl + pos + 1) cur with
            | error e1 => simp [hsp] at h
            | ok pr =>
              obtain ⟨e2, n2⟩ := pr
              simp only [hsp] at h
              have hb := ihSecond (cl + pos + 1) cur e2 n2 hsp
              exact ihThirdLoop pos e2 (cl + n2) e n (by omega) h
          · rw [if_neg hty] at h
            simp only [Except.ok.injEq, Prod.mk.injEq] at h
            obtain ⟨-, hn⟩ := h
            omega
      · rw [if_neg hc] at h
        simp only [Except.ok.injEq, Prod.mk.injEq] at h
        obtain ⟨-, hn⟩ := h
        omega
    · intro pos left e n h
      simp only [parse_third_priorityF] at h
      cases htok : tl[pos]? with
      | none => simp [htok] at h
      | some tok =>
        simp only [htok] at h
        cases hfp : parse_first_priorityF f tl (pos + 1) with
        | error e1 => simp [hfp] at h
        | ok pr =>
          obtain ⟨e1, n1⟩ := pr
          simp only [hfp] at h
          cases htlp : parse_third_loopF f tl pos e1 n1 with
          | error e1 => simp [htlp] at h
          | ok pr2 =>
            obtain ⟨e2, n2⟩ := pr2
            simp only [htlp, Except.ok.injEq, Prod.mk.injEq] at h
            obtain ⟨-, hn⟩ := h
            have h1 := ihFirst (pos + 1) e1 n1 hfp
            have h2 := ihThirdLoop pos e1 n1 e2 n2 (by omega) htlp
            omega
    · intro pos cur cl e n hin h
      simp only [parse_expr_loopF] at h
      by_cases hc : pos + cl < tl.length
      · rw [if_pos hc] at h
        cases hct : tl[cl + pos]? with
        | none => simp [hct] at h
        | some ct =>
          simp only [hct] at h
          by_cases hty : ct.token_type = TokenType.THIRD_PRIORITY_OP
          · rw [if_pos hty] at h
            cases htp : parse_third_priorityF f tl (cl + pos) cur with
            | error e1 => simp [htp] at h
            | ok pr =>
              obtain ⟨e2, n2⟩ := pr
              simp only [htp] at h
              have hb := ihThird (cl + pos) cur e2 n2 htp
              exact ihExprLoop pos e2 (cl + n2) e n (by omega) h
          · rw [if_neg hty] at h
            by_cases hty2 : ct.token_type = TokenType.SECOND_PRIORITY_OP
            · rw [if_pos hty2] at h
              cases hsp : parse_second_priorityF f tl (cl + pos) cur with
              | error e1 => simp [hsp] at h
              | ok pr =>
                obtain ⟨e2, n2⟩ := pr
                simp only [hsp] at h
                have hb := ihSecond (cl + pos) cur e2 n2 hsp
                exact ihExprLoop pos e2 (cl + n2) e n (by omega) h
            · rw [if_neg hty2] at h
              simp only [Except.ok.injEq, Prod.mk.injEq] at h
              obtain ⟨-, hn⟩ := h
              omega
      · rw [if_neg hc] at h
        simp only [Except.ok.injEq, Prod.mk.injEq] at h
        obtain ⟨-, hn⟩ := h
        omega
    · intro pos e n h
      simp only [parse_exprF] at h
      cases hfp : parse_first_priorityF f tl pos with
      | error e1 => simp [hfp] at h
      | ok pr =>
        obtain ⟨e1, n1⟩ := pr
        simp only [hfp] at h
        have h1 := ihFirst pos e1 n1 hfp
        exact ihExprLoop pos e1 n1 e n h1 h

/-- With at least two units of budget, parse_expr at an out-of-range start
raises the IndexError of token_list indexing. -/
lemma parse_exprF_out_of_range (f : Nat) (tl : List Token) (pos : Nat)
    (h : tl.length ≤ pos) :
    parse_exprF (f + 1 + 1) tl pos = Except.error ParseError.indexError := by
  have h0 : tl[pos]? = none := List.getElem?_eq_none h
  simp [parse_exprF, parse_first_priorityF, h0]

/-- With at least two units of budget, parse_expr on a leading binary
operator raises the ValueError of parse_first_priority. -/
lemma parse_exprF_leading_binop (f : Nat) (tl : List Token) (pos : Nat) (t : Token)
    (h : tl[pos]? = some t)
    (ht : t.token_type = TokenType.SECOND_PRIORITY_OP ∨
      t.token_type = TokenType.THIRD_PRIORITY_OP) :
    parse_exprF (f + 1 + 1) tl pos = Except.error ParseError.beginWithBinaryOp := by
  rcases ht with ht | ht <;> simp [parse_exprF, parse_first_priorityF, h, ht]

lemma parseFuel_split (tl : List Token) : parseFuel tl = 4 * tl.length + 2 + 1 + 1 := by
  simp only [parseFuel]

/-- The classification property of claim C5, over a finished token list:
every token whose text is a plus or minus sign has kind SIGN or
THIRD_PRIORITY_OP, and has kind SIGN exactly when it is the first token or
follows a second- or third-priority operator. -/
def SignClassified (l : List Token) : Prop :=
  ∀ i t, l[i]? = some t → (t.token_str = "+" ∨ t.token_str = "-") →
    (t.token_type = TokenType.SIGN ∨ t.token_type = TokenType.THIRD_PRIORITY_OP) ∧
    (t.token_type = TokenType.SIGN ↔
      (i = 0 ∨ ∃ p, l[i - 1]? = some p ∧
        (p.token_type = TokenType.SECOND_PRIORITY_OP ∨
         p.token_type = TokenType.THIRD_PRIORITY_OP)))

/-- Appending a token whose text is not a bare sign preserves the
classification property. -/
lemma signClassified_append (l : List Token) (t : Token) (hP : SignClassified l)
    (ht : t.token_str ≠ "+") (ht2 : t.token_str ≠ "-") :
    SignClassified (l ++ [t]) := by
  intro i u hu hpm
  rcases Nat.lt_trichotomy i l.length with hi | hi | hi
  · rw [List.getElem?_append_left hi] at hu
    have hold := hP i u hu hpm
    refine ⟨hold.1, ?_⟩
    rw [List.getElem?_append_left (show i - 1 < l.length by omega)]
    exact hold.2
  · subst hi
    have hl : (l ++ [t])[l.length]? = some t := by simp
    rw [hl] at hu
    injection hu with hu
    subst hu
    rcases hpm with hpm | hpm
    · exact absurd hpm ht
    · exact absurd hpm ht2
  · rw [List.getElem?_eq_none (by simp; omega)] at hu
    exact Option.noConfusion hu

/-- Appending a sign-or-binary token classified by signType preserves the
classification property, whatever its text. -/
lemma signClassified_append_sign (l : List Token) (s : String) (hP : SignClassified l) :
    SignClassified (l ++ [Token.mk s (signType l)]) := by
  intro i u hu hpm
  rcases Nat.lt_trichotomy i l.length with hi | hi | hi
  · rw [List.getElem?_append_left hi] at hu
    have hold := hP i u hu hpm
    refine ⟨hold.1, ?_⟩
    rw [List.getElem?_append_left (show i - 1 < l.length by omega)]
    exact hold.2
  · subst hi
    have hl : (l ++ [Token.mk s (signType l)])[l.length]? = some (Token.mk s (signType l)) := by
      simp
    rw [hl] at hu
    injection hu with hu
    subst hu
    cases hlast : l.getLast? with
    | none =>
      have hnil : l = [] := by
        cases l with
        | nil => rfl
        | cons a as => simp at hlast
      subst hnil
      constructor
      · left
        simp [signType]
      · simp [signType]
    | some p =>
      have hne : l ≠ [] := by
        rintro rfl
        simp at hlast
      have hlen : 0 < l.length := List.length_pos.mpr hne
      have hp : l[l.length - 1]? = some p := by
        rw [← List.getLast?_eq_getElem?]
        exact hlast
      have hidx : (l ++ [Token.mk s (signType l)])[l.length - 1]? = some p := by
        rw [List.getElem?_append_left (by omega)]
        exact hp
      have hsig : signType l = (if p.token_type = TokenType.SECOND_PRIORITY_OP ∨
          p.token_type = TokenType.THIRD_PRIORITY_OP
          then TokenType.SIGN else TokenType.THIRD_PRIORITY_OP) := by
        simp [signType, hlast]
      by_cases hc : p.token_type = TokenType.SECOND_PRIORITY_OP ∨
          p.token_type = TokenType.THIRD_PRIORITY_OP
      · rw [if_pos hc] at hsig
        constructor
        · exact Or.inl hsig
        · show signType l = TokenType.SIGN ↔ _
          rw [hsig]
          rw [hsig] at hidx
          exact iff_of_true rfl (Or.inr ⟨p, hidx, hc⟩)
      · rw [if_neg hc] at hsig
        constructor
        · exact Or.inr hsig
        · show signType l = TokenType.SIGN ↔ _
          rw [hsig]
          rw [hsig] at hidx
          refine iff_of_false (by simp) ?_
          rintro (h0 | ⟨p2, hp2, hty2⟩)
          · omega
          · rw [hidx] at hp2
            injection hp2 with hp2
            subst hp2
            exact hc hty2
  · rw [List.getElem?_eq_none (by simp; omega)] at hu
    exact Option.noConfusion hu

/-- The open-accumulator text never contains a sign character: what the
digit, dot and alphabetic branches of the lexer maintain. -/
def stateNoSign (ct : Option TokenType) (cs : String) : Prop :=
  ∀ ty, ct = some ty → ('+' ∉ cs.data ∧ '-' ∉ cs.data)

lemma data_push (s : String) (c : Char) : (s.push c).data = s.data ++ [c] := rfl

lemma data_singleton (c : Char) : (String.singleton c).data = [c] := rfl

lemma pushTok_signClassified {result : List Token} {ct : Option TokenType} {cs : String}
    (hP : SignClassified result) (hst : stateNoSign ct cs) :
    SignClassified (pushTok result ct cs) := by
  cases ct with
  | none => exact hP
  | some ty =>
    have hcs := hst ty rfl
    refine signClassified_append _ _ hP ?_ ?_
    · intro h
      apply hcs.1
      rw [show (Token.mk cs ty).token_str = cs from rfl] at h
      rw [h]
      simp
    · intro h
      apply hcs.2
      rw [show (Token.mk cs ty).token_str = cs from rfl] at h
      rw [h]
      simp

lemma ne_pm_of_digit_dot {v : Char} (h : (v.isDigit || v == '.') = true) :
    v ≠ '+' ∧ v ≠ '-' := by
  constructor <;> rintro rfl <;> exact absurd h (by decide)

lemma ne_pm_of_alpha {v : Char} (h : v.isAlpha = true) : v ≠ '+' ∧ v ≠ '-' := by
  constructor <;> rintro rfl <;> exact absurd h (by decide)

lemma singleton_ne_pm_of_star_slash {v : Char} (h : (v == '*' || v == '/') = true) :
    String.singleton v ≠ "+" ∧ String.singleton v ≠ "-" := by
  simp only [Bool.or_eq_true, beq_iff_eq] at h
  rcases h with rfl | rfl <;> exact ⟨by decide, by decide⟩

lemma singleton_ne_pm_of_bracket {v : Char} (h : (v == '(' || v == ')') = true) :
    String.singleton v ≠ "+" ∧ String.singleton v ≠ "-" := by
  simp only [Bool.or_eq_true, beq_iff_eq] at h
  rcases h with rfl | rfl <;> exact ⟨by decide, by decide⟩

lemma stateNoSign_push {cs : String} {v : Char} (h1 : '+' ∉ cs.data) (h2 : '-' ∉ cs.data)
    (hv : v ≠ '+' ∧ v ≠ '-') (ct2 : Option TokenType) : stateNoSign ct2 (cs.push v) := by
  intro ty hty
  constructor
  · intro hmem
    rw [data_push] at hmem
    rcases List.mem_append.mp hmem with hmem | hmem
    · exact h1 hmem
    · exact hv.1 (List.mem_singleton.mp hmem).symm
  · intro hmem
    rw [data_push] at hmem
    rcases List.mem_append.mp hmem with hmem | hmem
    · exact h2 hmem
    · exact hv.2 (List.mem_singleton.mp hmem).symm

lemma stateNoSign_singleton {v : Char} (hv : v ≠ '+' ∧ v ≠ '-') (ct2 : Option TokenType) :
    stateNoSign ct2 (String.singleton v) := by
  intro ty hty
  rw [data_singleton]
  constructor
  · intro hmem
    exact hv.1 (List.mem_singleton.mp hmem).symm
  · intro hmem
    exact hv.2 (List.mem_singleton.mp hmem).symm

lemma stateNoSign_closed (cs : String) : stateNoSign none cs :=
  fun _ hty => Option.noConfusion hty

/-- One lexer step preserves both the sign-classification property of the
emitted tokens and the no-sign-character property of the open accumulator. -/
lemma lexStep_signClassified (v : Char) (result : List Token) (ct : Option TokenType)
    (cs : String) (hP : SignClassified result) (hst : stateNoSign ct cs) :
    SignClassified (lexStep v result ct cs).1 ∧
      stateNoSign (lexStep v result ct cs).2.1 (lexStep v result ct cs).2.2 := by
  unfold lexStep
  by_cases h1 : (v.isDigit || v == '.') = true
  · rw [if_pos h1]
    have hv := ne_pm_of_digit_dot h1
    by_cases h2 : ct = some TokenType.NUMBER
    · rw [if_pos h2]
      have hcs := hst TokenType.NUMBER h2
      exact ⟨hP, stateNoSign_push hcs.1 hcs.2 hv _⟩
    · rw [if_neg h2]
      exact ⟨pushTok_signClassified hP hst, stateNoSign_singleton hv _⟩
  · rw [if_neg h1]
    by_cases h2 : v.isAlpha = true
    · rw [if_pos h2]
      have hv := ne_pm_of_alpha h2
      by_cases h3 : ct = some TokenType.CONSTANT_OR_FUNCTION_NAME
      · rw [if_pos h3]
        have hcs := hst TokenType.CONSTANT_OR_FUNCTION_NAME h3
        exact ⟨hP, stateNoSign_push hcs.1 hcs.2 hv _⟩
      · rw [if_neg h3]
        exact ⟨pushTok_signClassified hP hst, stateNoSign_singleton hv _⟩
    · rw [if_neg h2]
      by_cases h3 : (v == '+' || v == '-') = true
      · rw [if_pos h3]
        exact ⟨signClassified_append_sign _ _ (pushTok_signClassified hP hst),
          stateNoSign_closed _⟩
      · rw [if_neg h3]
        by_cases h4 : (v == '*' || v == '/') = true
        · rw [if_pos h4]
          have hv := singleton_ne_pm_of_star_slash h4
          exact ⟨signClassified_append _ _ (pushTok_signClassified hP hst) hv.1 hv.2,
            stateNoSign_closed _⟩
        · rw [if_neg h4]
          by_cases h5 : (v == '(' || v == ')') = true
          · rw [if_pos h5]
            have hv := singleton_ne_pm_of_bracket h5
            exact ⟨signClassified_append _ _ (pushTok_signClassified hP hst) hv.1 hv.2,
              stateNoSign_closed _⟩
          · rw [if_neg h5]
            exact ⟨hP, hst⟩

/-- The lexer loop preserves the sign-classification property from any sound
intermediate state. -/
lemma lexLoop_signClassified (l : List Char) :
    ∀ (result : List Token) (ct : Option TokenType) (cs : String),
      SignClassified result → stateNoSign ct cs →
      SignClassified (lexLoop l result ct cs) := by
  induction l with
  | nil =>
    intro result ct cs hP hst
    exact pushTok_signClassified hP hst
  | cons v rest ih =>
    intro result ct cs hP hst
    have hstep := lexStep_signClassified v result ct cs hP hst
    exact ih _ _ _ hstep.1 hstep.2

lemma signClassified_nil : SignClassified ([] : List Token) := by
  intro i t h
  simp at h

/-- Well-formedness of an emitted token, as claim C10 states it: nonempty
text, and one of the six kinds the lexer can assign; DOT is not among them. -/
def TokenWF (t : Token) : Prop :=
  t.token_str ≠ "" ∧
    (t.token_type = TokenType.NUMBER ∨ t.token_type = TokenType.SIGN ∨
     t.token_type = TokenType.BRACKET ∨ t.token_type = TokenType.SECOND_PRIORITY_OP ∨
     t.token_type = TokenType.THIRD_PRIORITY_OP ∨
     t.token_type = TokenType.CONSTANT_OR_FUNCTION_NAME)

/-- Soundness of the open accumulator: when a token is open its text is
nonempty and its kind is NUMBER or CONSTANT_OR_FUNCTION_NAME (the only two
kinds the lexer accumulates). -/
def stateWF (ct : Option TokenType) (cs : String) : Prop :=
  ∀ ty, ct = some ty →
    (cs ≠ "" ∧ (ty = TokenType.NUMBER ∨ ty = TokenType.CONSTANT_OR_FUNCTION_NAME))

lemma push_ne_empty (cs : String) (v : Char) : cs.push v ≠ "" := by
  intro h
  have : (cs.push v).data = ([] : List Char) := by rw [h]
  rw [data_push] at this
  simp at this

lemma singleton_ne_empty (v : Char) : String.singleton v ≠ "" := by
  intro h
  have : (String.singleton v).data = ([] : List Char) := by rw [h]
  rw [data_singleton] at this
  simp at this

lemma stateWF_closed (cs : String) : stateWF none cs :=
  fun _ hty => Option.noConfusion hty

lemma pushTok_wf {result : List Token} {ct : Option TokenType} {cs : String}
    (h : ∀ t ∈ result, TokenWF t) (hst : stateWF ct cs) :
    ∀ t ∈ pushTok result ct cs, TokenWF t := by
  cases ct with
  | none => exact h
  | some ty =>
    intro t ht
    simp only [pushTok, List.mem_append, List.mem_singleton] at ht
    rcases ht with ht | rfl
    · exact h t ht
    · have hs := hst ty rfl
      refine ⟨hs.1, ?_⟩
      rcases hs.2 with h2 | h2
      · exact Or.inl h2
      · exact Or.inr (Or.inr (Or.inr (Or.inr (Or.inr h2))))

lemma signType_eq_or (l : List Token) :
    signType l = TokenType.SIGN ∨ signType l = TokenType.THIRD_PRIORITY_OP := by
  unfold signType
  cases l.getLast? with
  | none => exact Or.inl rfl
  | some t =>
    by_cases hc : t.token_type = TokenType.SECOND_PRIORITY_OP ∨
        t.token_type = TokenType.THIRD_PRIORITY_OP
    · exact Or.inl (if_pos hc)
    · exact Or.inr (if_neg hc)

lemma wf_append {result : List Token} (h : ∀ t ∈ result, TokenWF t) (u : Token)
    (hu : TokenWF u) : ∀ t ∈ result ++ [u], TokenWF t := by
  intro t ht
  rcases List.mem_append.mp ht with ht | ht
  · exact h t ht
  · rcases List.mem_singleton.mp ht with rfl
    exact hu

/-- One lexer step preserves token well-formedness and accumulator
soundness. -/
lemma lexStep_wf (v : Char) (result : List Token) (ct : Option TokenType) (cs : String)
    (hP : ∀ t ∈ result, TokenWF t) (hst : stateWF ct cs) :
    (∀ t ∈ (lexStep v result ct cs).1, TokenWF t) ∧
      stateWF (lexStep v result ct cs).2.1 (lexStep v result ct cs).2.2 := by
  unfold lexStep
  by_cases h1 : (v.isDigit || v == '.') = true
  · rw [if_pos h1]
    by_cases h2 : ct = some TokenType.NUMBER
    · rw [if_pos h2]
      refine ⟨hP, ?_⟩
      intro ty hty
      rw [h2] at hty
      injection hty with hty
      exact ⟨push_ne_empty cs v, Or.inl hty.symm⟩
    · rw [if_neg h2]
      refine ⟨pushTok_wf hP hst, ?_⟩
      intro ty hty
      injection hty with hty
      exact ⟨singleton_ne_empty v, Or.inl hty.symm⟩
  · rw [if_neg h1]
    by_cases h2 : v.isAlpha = true
    · rw [if_pos h2]
      by_cases h3 : ct = some TokenType.CONSTANT_OR_FUNCTION_NAME
      · rw [if_pos h3]
        refine ⟨hP, ?_⟩
        intro ty hty
        rw [h3] at hty
        injection hty with hty
        exact ⟨push_ne_empty cs v, Or.inr hty.symm⟩
      · rw [if_neg h3]
        refine ⟨pushTok_wf hP hst, ?_⟩
        intro ty hty
        injection hty with hty
        exact ⟨singleton_ne_empty v, Or.inr hty.symm⟩
    · rw [if_neg h2]
      by_cases h3 : (v == '+' || v == '-') = true
      · rw [if_pos h3]
        refine ⟨wf_append (pushTok_wf hP hst) _ ?_, stateWF_closed _⟩
        refine ⟨singleton_ne_empty v, ?_⟩
        rcases signType_eq_or (pushTok result ct cs) with hs | hs
        · exact Or.inr (Or.inl hs)
        · exact Or.inr (Or.inr (Or.inr (Or.inr (Or.inl hs))))
      · rw [if_neg h3]
        by_cases h4 : (v == '*' || v == '/') = true
        · rw [if_pos h4]
          refine ⟨wf_append (pushTok_wf hP hst) _ ?_, stateWF_closed _⟩
          exact ⟨singleton_ne_empty v, Or.inr (Or.inr (Or.inr (Or.inl rfl)))⟩
        · rw [if_neg h4]
          by_cases h5 : (v == '(' || v == ')') = true
          · rw [if_pos h5]
            refine ⟨wf_append (pushTok_wf hP hst) _ ?_, stateWF_closed _⟩
            exact ⟨singleton_ne_empty v, Or.inr (Or.inr (Or.inl rfl))⟩
          · rw [if_neg h5]
            exact ⟨hP, hst⟩

/-- The lexer loop emits only well-formed tokens from any sound state. -/
lemma lexLoop_wf (l : List Char) :
    ∀ (result : List Token) (ct : Option TokenType) (cs : String),
      (∀ t ∈ result, TokenWF t) → stateWF ct cs →
      ∀ t ∈ lexLoop l result ct cs, TokenWF t := by
  induction l with
  | nil =>
    intro result ct cs hP hst
    exact pushTok_wf hP hst
  | cons v rest ih =>
    intro result ct cs hP hst
    have hstep := lexStep_wf v result ct cs hP hst
    exact ih _ _ _ hstep.1 hstep.2

/-- C1: the claim states that parse_bracket (reached from
parse_first_priority) requires and consumes the matching right bracket, so
that whenever it succeeds at pos with inner length n, the token at position
pos + 1 + n exists and is a right bracket.  The code never examines that
position: the second assert re-reads the unchanged current_token, so it
re-checks the opening bracket.  On the token list of "(1" the inner
parse_expr at position 1 consumes 1 token, parse_bracket at 0 succeeds with
consumed length 1 + 2 = 3, yet position 0 + 1 + 1 = 2 holds no token at
all: the asserted bracket matching the claim and the spec describe is
absent from the code. -/
theorem c1_parse_bracket_skips_close_check :
    lex ("(1") = [Token.mk ("(") TokenType.BRACKET, Token.mk ("1") TokenType.NUMBER] ∧
    parse_expr (lex ("(1")) 1 = Except.ok (BaseExpression.NumberExpression ("1"), 1) ∧
    parse_bracket (lex ("(1")) 0 = Except.ok (BaseExpression.NumberExpression ("1"), 3) ∧
    (lex ("(1"))[0 + 1 + 1]? = none :=
  ⟨by decide, by with_unfolding_all rfl, by with_unfolding_all rfl, by decide⟩

/-- C2 counterexample: the claim states that an unmatched character (here a
space) flushes the open token, so that lex of "1 2" has two Number tokens.
In the code no branch of the loop body matches such a character, nothing is
flushed, and the two digits join into the single Number token "12". -/
theorem c2_counterexample :
    lex ("1 2") = [Token.mk ("12") TokenType.NUMBER] ∧ (lex ("1 2")).length ≠ 2 := by
  decide

/-- C2 amended: a character matching no lexing rule is skipped entirely:
the lexer state (emitted tokens, open accumulator kind and text) is
returned unchanged, so an open token stays open across it, and lex of
"1 2" is the single Number token "12". -/
theorem c2_unmatched_char_skipped :
    (∀ (v : Char) (result : List Token) (ct : Option TokenType) (cs : String),
      (v.isDigit || v == '.') = false → v.isAlpha = false →
      (v == '+' || v == '-') = false → (v == '*' || v == '/') = false →
      (v == '(' || v == ')') = false →
      lexStep v result ct cs = (result, ct, cs)) ∧
    lex ("1 2") = [Token.mk ("12") TokenType.NUMBER] := by
  constructor
  · intro v result ct cs h1 h2 h3 h4 h5
    unfold lexStep
    rw [if_neg (by simp [h1]), if_neg (by simp [h2]), if_neg (by simp [h3]),
      if_neg (by simp [h4]), if_neg (by simp [h5])]
  · decide

/-- Witness for C2: a space meeting an open Number accumulator "1" leaves
the whole lexer state untouched. -/
theorem c2_witness :
    lexStep (' ') [] (some TokenType.NUMBER) ("1") = ([], some TokenType.NUMBER, "1") :=
  c2_unmatched_char_skipped.1 (' ') [] (some TokenType.NUMBER) ("1")
    (by decide) (by decide) (by decide) (by decide) (by decide)

/-- C3 counterexample: the claim states that evaluating a division whose
right operand is zero does not raise and yields an IEEE infinity or NaN.
Python float division raises ZeroDivisionError instead, so the pipeline on
"1/0" fails with that error and produces no value. -/
theorem c3_counterexample :
    eval (BaseExpression.BinaryExpression (BaseExpression.NumberExpression ("1")) ("/")
        (BaseExpression.NumberExpression ("0"))) =
      Except.error EvalError.zeroDivisionError ∧
    run ("1/0") = RunResult.evalFailure EvalError.zeroDivisionError :=
  ⟨by with_unfolding_all rfl, by with_unfolding_all decide⟩

/-- C3 amended: evaluating BinaryOp(l, "/", r) where l evaluates to a float
and r evaluates to 0.0 raises ZeroDivisionError — an error, not a signed
infinity — because Python float division by zero raises. -/
theorem c3_division_by_zero_raises :
    ∀ (l r : BaseExpression) (x : Rat),
      eval l = Except.ok (MathObj.num x) → eval r = Except.ok (MathObj.num 0) →
      eval (BaseExpression.BinaryExpression l ("/") r) =
        Except.error EvalError.zeroDivisionError := by
  intro l r x hl hr
  simp [eval, hl, hr, applyOp]

/-- Witness for C3: the division 1/0 from the parsed pipeline. -/
theorem c3_witness :
    eval (BaseExpression.BinaryExpression (BaseExpression.NumberExpression ("1")) ("/")
        (BaseExpression.NumberExpression ("0"))) =
      Except.error EvalError.zeroDivisionError :=
  c3_division_by_zero_raises (BaseExpression.NumberExpression ("1"))
    (BaseExpression.NumberExpression ("0")) 1
    (by with_unfolding_all rfl) (by with_unfolding_all rfl)

/-- C4: the pipeline respects the two precedence tiers and unary-sign
binding on the three concrete inputs of the claim: 2+3*4 is 14, (2+3)*4 is
20, and 6*-2 is -12. -/
theorem c4_precedence_pipeline :
    run ("2+3*4") = RunResult.value 14 ∧
    run ("(2+3)*4") = RunResult.value 20 ∧
    run ("6*-2") = RunResult.value (-12) := by
  refine ⟨?_, ?_, ?_⟩ <;> with_unfolding_all decide

/-- C5: every plus or minus token the lexer emits has kind SIGN or
THIRD_PRIORITY_OP, and kind SIGN exactly when it is the first emitted token
or the immediately preceding emitted token is a second- or third-priority
operator. -/
theorem c5_sign_classification (s : String) (i : Nat) (t : Token)
    (h : (lex s)[i]? = some t) (hpm : t.token_str = "+" ∨ t.token_str = "-") :
    (t.token_type = TokenType.SIGN ∨ t.token_type = TokenType.THIRD_PRIORITY_OP) ∧
    (t.token_type = TokenType.SIGN ↔
      (i = 0 ∨ ∃ p, (lex s)[i - 1]? = some p ∧
        (p.token_type = TokenType.SECOND_PRIORITY_OP ∨
         p.token_type = TokenType.THIRD_PRIORITY_OP))) :=
  lexLoop_signClassified s.data [] none "" signClassified_nil (stateNoSign_closed "") i t h hpm

/-- Witness for C5: in "1-2" the minus follows a Number token, so it is
binary and the classification biconditional is false on both sides. -/
theorem c5_witness :
    ((Token.mk ("-") TokenType.THIRD_PRIORITY_OP).token_type = TokenType.SIGN ∨
     (Token.mk ("-") TokenType.THIRD_PRIORITY_OP).token_type = TokenType.THIRD_PRIORITY_OP) ∧
    ((Token.mk ("-") TokenType.THIRD_PRIORITY_OP).token_type = TokenType.SIGN ↔
      (1 = 0 ∨ ∃ p, (lex ("1-2"))[1 - 1]? = some p ∧
        (p.token_type = TokenType.SECOND_PRIORITY_OP ∨
         p.token_type = TokenType.THIRD_PRIORITY_OP))) :=
  c5_sign_classification ("1-2") 1 (Token.mk ("-") TokenType.THIRD_PRIORITY_OP)
    (by decide) (Or.inr rfl)

/-- C6: evaluating a constant reference looks its name up in the fixed math
table (which holds real constants such as pi and e) and fails with the
AttributeError the spec calls UnknownNameError when the name is absent; a
function call with an unknown name fails the same way, and the whole
pipeline on "foo(1)" fails with that error. -/
theorem c6_unknown_name_fails :
    (∀ name, mathAttr name = none →
      eval (BaseExpression.ConstantExpression name) =
        Except.error (EvalError.attributeError name)) ∧
    (∀ name arg, mathAttr name = none →
      eval (BaseExpression.FunctionExpression name arg) =
        Except.error (EvalError.attributeError name)) ∧
    (∃ q, mathAttr ("pi") = some (MathObj.num q)) ∧
    (∃ q, mathAttr ("e") = some (MathObj.num q)) ∧
    run ("foo(1)") = RunResult.evalFailure (EvalError.attributeError ("foo")) := by
  refine ⟨?_, ?_, ⟨(3.141592653589793 : Rat), by with_unfolding_all rfl⟩,
    ⟨(2.718281828459045 : Rat), by with_unfolding_all rfl⟩, by with_unfolding_all decide⟩
  · intro name h
    simp only [eval, h]
  · intro name arg h
    simp only [eval, h]

/-- Witness for C6: the name foo is absent from the math table, so both a
constant reference and a function call on it fail. -/
theorem c6_witness :
    eval (BaseExpression.ConstantExpression ("foo")) =
      Except.error (EvalError.attributeError ("foo")) ∧
    eval (BaseExpression.FunctionExpression ("foo") (BaseExpression.NumberExpression ("1"))) =
      Except.error (EvalError.attributeError ("foo")) :=
  ⟨c6_unknown_name_fails.1 ("foo") (by with_unfolding_all rfl),
   c6_unknown_name_fails.2.1 ("foo") (BaseExpression.NumberExpression ("1"))
     (by with_unfolding_all rfl)⟩

/-- C7: parse_expr fails, producing no AST, when the start position is out
of range of the token list (the IndexError of token indexing, which the
spec folds into SyntaxError) — including on the empty token list lexed from
an empty input — and when the token at the start position is a binary
operator (the ValueError of parse_first_priority); in particular parsing
the tokens of "*3" fails that way. -/
theorem c7_parse_expr_failures :
    (∀ tl pos, tl.length ≤ pos → parse_expr tl pos = Except.error ParseError.indexError) ∧
    (∀ tl pos t, tl[pos]? = some t →
      (t.token_type = TokenType.SECOND_PRIORITY_OP ∨
       t.token_type = TokenType.THIRD_PRIORITY_OP) →
      parse_expr tl pos = Except.error ParseError.beginWithBinaryOp) ∧
    lex ("") = [] ∧
    parse (lex ("")) = Except.error ParseError.indexError ∧
    parse (lex ("*3")) = Except.error ParseError.beginWithBinaryOp := by
  refine ⟨?_, ?_, by decide, by with_unfolding_all rfl, by with_unfolding_all rfl⟩
  · intro tl pos h
    unfold parse_expr
    rw [parseFuel_split]
    exact parse_exprF_out_of_range _ tl pos h
  · intro tl pos t h ht
    unfold parse_expr
    rw [parseFuel_split]
    exact parse_exprF_leading_binop _ tl pos t h ht

/-- Witness for C7: the empty token list at position 0 and the tokens of
"*3" at position 0. -/
theorem c7_witness :
    parse_expr ([] : List Token) 0 = Except.error ParseError.indexError ∧
    parse_expr (lex ("*3")) 0 = Except.error ParseError.beginWithBinaryOp :=
  ⟨c7_parse_expr_failures.1 [] 0 (by decide),
   c7_parse_expr_failures.2.1 (lex ("*3")) 0 (Token.mk ("*") TokenType.SECOND_PRIORITY_OP)
     (by decide) (Or.inl rfl)⟩

/-- C8 counterexample: the claim states that whenever a parse function
succeeds with (ast, n), the parser reads no token at an index at or above
start + n and start + n never exceeds the token list length.  Both parts
fail on the code.  First, on the token list of "(1" (length 2), parse_expr
at 0 succeeds with consumed count 3, because parse_bracket adds 2 for a
closing bracket that is not there.  Second, the loops read the boundary
token at index start + n before stopping: the token lists of "1)" and "1*"
have equal length and agree at every index below 0 + 1, the span parse_expr
consumes of the first, yet parse_expr succeeds with n = 1 on one and fails
on the other, so the token at index start + n was read. -/
theorem c8_counterexample :
    parse_expr (lex ("(1")) 0 = Except.ok (BaseExpression.NumberExpression ("1"), 3) ∧
    ¬ (0 + 3 ≤ (lex ("(1")).length) ∧
    (lex ("1)"))[0]? = (lex ("1*"))[0]? ∧
    (lex ("1)")).length = (lex ("1*")).length ∧
    parse_expr (lex ("1)")) 0 = Except.ok (BaseExpression.NumberExpression ("1"), 1) ∧
    parse_expr (lex ("1*")) 0 = Except.error ParseError.indexError :=
  ⟨by with_unfolding_all rfl, by decide, by decide, by decide,
   by with_unfolding_all rfl, by with_unfolding_all rfl⟩

/-- C9: a minus immediately after a left bracket, as in "(-2)", or after a
Sign token, as in "--2", is classified THIRD_PRIORITY_OP by the lexer, so
parse_first_priority meets a binary operator where an operand must start
and parsing fails with the leading-binary-operator error instead of
producing a negative number. -/
theorem c9_minus_after_bracket_or_sign_is_binary :
    lex ("(-2)") =
      [Token.mk ("(") TokenType.BRACKET, Token.mk ("-") TokenType.THIRD_PRIORITY_OP,
       Token.mk ("2") TokenType.NUMBER, Token.mk (")") TokenType.BRACKET] ∧
    parse (lex ("(-2)")) = Except.error ParseError.beginWithBinaryOp ∧
    lex ("--2") =
      [Token.mk ("-") TokenType.SIGN, Token.mk ("-") TokenType.THIRD_PRIORITY_OP,
       Token.mk ("2") TokenType.NUMBER] ∧
    parse (lex ("--2")) = Except.error ParseError.beginWithBinaryOp :=
  ⟨by decide, by with_unfolding_all rfl, by decide, by with_unfolding_all rfl⟩

/-- C10: every token the lexer emits has nonempty text and one of the six
kinds Number, Sign, Bracket, SecondPriorityOp, ThirdPriorityOp, Identifier
— never DOT, though the dispatch of parse_first_priority also accepts it —
and a lone dot becomes a Number token "." whose evaluation fails with the
numeric parse error. -/
theorem c10_lexer_token_invariant :
    (∀ s t, t ∈ lex s → TokenWF t ∧ t.token_type ≠ TokenType.DOT) ∧
    lex (".") = [Token.mk (".") TokenType.NUMBER] ∧
    run (".") = RunResult.evalFailure (EvalError.valueError (".")) := by
  refine ⟨?_, by decide, by with_unfolding_all decide⟩
  intro s t ht
  have hwf := lexLoop_wf s.data [] none ""
    (fun t h => absurd h (List.not_mem_nil t)) (stateWF_closed "") t ht
  refine ⟨hwf, ?_⟩
  rcases hwf.2 with h | h | h | h | h | h <;> rw [h] <;> decide

/-- Witness for C10: the single token of "1". -/
theorem c10_witness :
    TokenWF (Token.mk ("1") TokenType.NUMBER) ∧
      (Token.mk ("1") TokenType.NUMBER).token_type ≠ TokenType.DOT :=
  c10_lexer_token_invariant.1 ("1") (Token.mk ("1") TokenType.NUMBER) (by decide)


/-- The two parser loops only ever grow the consumed count: a successful
loop run from cursor cl ends at a cursor at least cl. -/
lemma parse_loopMonoAux (tl : List Token) :
    ∀ fuel : Nat,
      (∀ pos cur cl e cl2, parse_third_loopF fuel tl pos cur cl = Except.ok (e, cl2) →
        cl ≤ cl2) ∧
      (∀ pos cur cl e cl2, parse_expr_loopF fuel tl pos cur cl = Except.ok (e, cl2) →
        cl ≤ cl2) := by
  intro fuel
  induction fuel with
  | zero =>
    constructor
    · intro pos cur cl e cl2 h; simp [parse_third_loopF] at h
    · intro pos cur cl e cl2 h; simp [parse_expr_loopF] at h
  | succ f ih =>
    obtain ⟨ihTL, ihEL⟩ := ih
    constructor
    · intro pos cur cl e cl2 h
      simp only [parse_third_loopF] at h
      by_cases hc : pos + cl + 1 < tl.length
      · rw [if_pos hc] at h
        cases hct : tl[cl + pos + 1]? with
        | none => simp [hct] at h
        | some ct =>
          simp only [hct] at h
          by_cases hty : ct.token_type = TokenType.SECOND_PRIORITY_OP
          · rw [if_pos hty] at h
            cases hsp : parse_second_priorityF f tl (cl + pos + 1) cur with
            | error e1 => simp [hsp] at h
            | ok pr =>
              obtain ⟨e2, n2⟩ := pr
              simp only [hsp] at h
              have := ihTL pos e2 (cl + n2) e cl2 h
              omega
          · rw [if_neg hty] at h
            simp only [Except.ok.injEq, Prod.mk.injEq] at h
            omega
      · rw [if_neg hc] at h
        simp only [Except.ok.injEq, Prod.mk.injEq] at h
        omega
    · intro pos cur cl e cl2 h
      simp only [parse_expr_loopF] at h
      by_cases hc : pos + cl < tl.length
      · rw [if_pos hc] at h
        cases hct : tl[cl + pos]? with
        | none => simp [hct] at h
        | some ct =>
          simp only [hct] at h
          by_cases hty : ct.token_type = TokenType.THIRD_PRIORITY_OP
          · rw [if_pos hty] at h
            cases htp : parse_third_priorityF f tl (cl + pos) cur with
            | error e1 => simp [htp] at h
            | ok pr =>
              obtain ⟨e2, n2⟩ := pr
              simp only [htp] at h
              have := ihEL pos e2 (cl + n2) e cl2 h
              omega
          · rw [if_neg hty] at h
            by_cases hty2 : ct.token_type = TokenType.SECOND_PRIORITY_OP
            · rw [if_pos hty2] at h
              cases hsp : parse_second_priorityF f tl (cl + pos) cur with
              | error e1 => simp [hsp] at h
              | ok pr =>
                obtain ⟨e2, n2⟩ := pr
                simp only [hsp] at h
                have := ihEL pos e2 (cl + n2) e cl2 h
                omega
            · rw [if_neg hty2] at h
              simp only [Except.ok.injEq, Prod.mk.injEq] at h
              omega
      · rw [if_neg hc] at h
        simp only [Except.ok.injEq, Prod.mk.injEq] at h
        omega


lemma parse_number_read {tl tl' : List Token} {pos : Nat} {e : BaseExpression} {n : Nat}
    (h : parse_number tl pos = Except.ok (e, n))
    (hag : ∀ i, i ≤ pos + n → tl[i]? = tl'[i]?) :
    parse_number tl' pos = Except.ok (e, n) := by
  unfold parse_number at h ⊢
  cases htok : tl[pos]? with
  | none => rw [htok] at h; exact Except.noConfusion h
  | some tok =>
    rw [htok] at h
    rw [← hag pos (by omega), htok]
    exact h

/-- Locality of the parser: a successful parse reads no token at an index
above start + consumed.  Formally, on a second token list of the same
length that agrees with the first at every index up to start + consumed
(the boundary token at start + consumed included, since the loops peek at
it before stopping), every parse method returns the identical result. -/
lemma parse_readAux (tl tl' : List Token) (hlen : tl'.length = tl.length) :
    ∀ fuel : Nat,
      (∀ pos e n, parse_signF fuel tl pos = Except.ok (e, n) →
        (∀ i, i ≤ pos + n → tl[i]? = tl'[i]?) →
        parse_signF fuel tl' pos = Except.ok (e, n)) ∧
      (∀ pos e n, parse_bracketF fuel tl pos = Except.ok (e, n) →
        (∀ i, i ≤ pos + n → tl[i]? = tl'[i]?) →
        parse_bracketF fuel tl' pos = Except.ok (e, n)) ∧
      (∀ pos e n, parse_constant_or_functionF fuel tl pos = Except.ok (e, n) →
        (∀ i, i ≤ pos + n → tl[i]? = tl'[i]?) →
        parse_constant_or_functionF fuel tl' pos = Except.ok (e, n)) ∧
      (∀ pos e n, parse_first_priorityF fuel tl pos = Except.ok (e, n) →
        (∀ i, i ≤ pos + n → tl[i]? = tl'[i]?) →
        parse_first_priorityF fuel tl' pos = Except.ok (e, n)) ∧
      (∀ pos left e n, parse_second_priorityF fuel tl pos left = Except.ok (e, n) →
        (∀ i, i ≤ pos + n → tl[i]? = tl'[i]?) →
        parse_second_priorityF fuel tl' pos left = Except.ok (e, n)) ∧
      (∀ pos cur cl e cl2, parse_third_loopF fuel tl pos cur cl = Except.ok (e, cl2) →
        (∀ i, i ≤ pos + cl2 + 1 → tl[i]? = tl'[i]?) →
        parse_third_loopF fuel tl' pos cur cl = Except.ok (e, cl2)) ∧
      (∀ pos left e n, parse_third_priorityF fuel tl pos left = Except.ok (e, n) →
        (∀ i, i ≤ pos + n → tl[i]? = tl'[i]?) →
        parse_third_priorityF fuel tl' pos left = Except.ok (e, n)) ∧
      (∀ pos cur cl e cl2, parse_expr_loopF fuel tl pos cur cl = Except.ok (e, cl2) →
        (∀ i, i ≤ pos + cl2 → tl[i]? = tl'[i]?) →
        parse_expr_loopF fuel tl' pos cur cl = Except.ok (e, cl2)) ∧
      (∀ pos e n, parse_exprF fuel tl pos = Except.ok (e, n) →
        (∀ i, i ≤ pos + n → tl[i]? = tl'[i]?) →
        parse_exprF fuel tl' pos = Except.ok (e, n)) := by
  intro fuel
  induction fuel with
  | zero =>
    refine ⟨?_, ?_, ?_, ?_, ?_, ?_, ?_, ?_, ?_⟩
    · intro pos e n h hag; simp [parse_signF] at h
    · intro pos e n h hag; simp [parse_bracketF] at h
    · intro pos e n h hag; simp [parse_constant_or_functionF] at h
    · intro pos e n h hag; simp [parse_first_priorityF] at h
    · intro pos left e n h hag; simp [parse_second_priorityF] at h
    · intro pos cur cl e cl2 h hag; simp [parse_third_loopF] at h
    · intro pos left e n h hag; simp [parse_third_priorityF] at h
    · intro pos cur cl e cl2 h hag; simp [parse_expr_loopF] at h
    · intro pos e n h hag; simp [parse_exprF] at h
  | succ f ih =>
    obtain ⟨ihSign, ihBracket, ihConstFn, ihFirst, ihSecond, ihThirdLoop, ihThird,
      ihExprLoop, ihExpr⟩ := ih
    refine ⟨?_, ?_, ?_, ?_, ?_, ?_, ?_, ?_, ?_⟩
    · intro pos e n h hag
      simp only [parse_signF] at h ⊢
      cases htok : tl[pos]? with
      | none => simp [htok] at h
      | some tok =>
        simp only [htok] at h
        cases hfp : parse_first_priorityF f tl (pos + 1) with
        | error e1 => simp [hfp] at h
        | ok pr =>
          obtain ⟨e1, n1⟩ := pr
          simp only [hfp, Except.ok.injEq, Prod.mk.injEq] at h
          obtain ⟨he, hn⟩ := h
          subst he
          subst hn
          have htok2 : tl'[pos]? = some tok := by rw [← hag pos (by omega), htok]
          have hfp2 := ihFirst (pos + 1) e1 n1 hfp (fun i hi => hag i (by omega))
          simp [htok2, hfp2]
    · intro pos e n h hag
      simp only [parse_bracketF] at h ⊢
      cases htok : tl[pos]? with
      | none => simp [htok] at h
      | some tok =>
        simp only [htok] at h
        by_cases hbr : tok.token_type = TokenType.BRACKET
        · rw [if_pos hbr] at h
          cases hex : parse_exprF f tl (pos + 1) with
          | error e1 => simp [hex] at h
          | ok pr =>
            obtain ⟨e1, m1⟩ := pr
            simp only [hex, Except.ok.injEq, Prod.mk.injEq] at h
            obtain ⟨he, hn⟩ := h
            subst he
            subst hn
            have htok2 : tl'[pos]? = some tok := by rw [← hag pos (by omega), htok]
            have hex2 := ihExpr (pos + 1) e1 m1 hex (fun i hi => hag i (by omega))
            simp [htok2, hbr, hex2]
        · rw [if_neg hbr] at h
          exact Except.noConfusion h
    · intro pos e n h hag
      simp only [parse_constant_or_functionF] at h ⊢
      cases htok : tl[pos]? with
      | none => simp [htok] at h
      | some tok =>
        simp only [htok] at h
        by_cases hend : pos + 1 = tl.length
        · rw [if_pos hend] at h
          simp only [Except.ok.injEq, Prod.mk.injEq] at h
          obtain ⟨he, hn⟩ := h
          subst he
          subst hn
          have htok2 : tl'[pos]? = some tok := by rw [← hag pos (by omega), htok]
          rw [hlen]
          simp [htok2, hend]
        · rw [if_neg hend] at h
          cases htok1 : tl[pos + 1]? with
          | none => simp [htok1] at h
          | some tok1 =>
            simp only [htok1] at h
            by_cases hlb : tok1.is_left_bracket = true
            · simp only [hlb, if_true] at h
              cases hbr : parse_bracketF f tl (pos + 1) with
              | error e1 => simp [hbr] at h
              | ok pr =>
                obtain ⟨e1, m1⟩ := pr
                simp only [hbr, Except.ok.injEq, Prod.mk.injEq] at h
                obtain ⟨he, hn⟩ := h
                subst he
                subst hn
                have htok2 : tl'[pos]? = some tok := by rw [← hag pos (by omega), htok]
                have htok12 : tl'[pos + 1]? = some tok1 := by
                  rw [← hag (pos + 1) (by omega), htok1]
                have hbr2 := ihBracket (pos + 1) e1 m1 hbr (fun i hi => hag i (by omega))
                rw [hlen]
                simp [htok2, hend, htok12, hlb, hbr2]
            · simp only [Bool.not_eq_true] at hlb
              simp only [hlb, Bool.false_eq_true, if_false] at h
              simp only [Except.ok.injEq, Prod.mk.injEq] at h
              obtain ⟨he, hn⟩ := h
              subst he
              subst hn
              have htok2 : tl'[pos]? = some tok := by rw [← hag pos (by omega), htok]
              have htok12 : tl'[pos + 1]? = some tok1 := by
                rw [← hag (pos + 1) (by omega), htok1]
              rw [hlen]
              simp [htok2, hend, htok12, hlb]
    · intro pos e n h hag
      simp only [parse_first_priorityF] at h ⊢
      cases htok : tl[pos]? with
      | none => simp [htok] at h
      | some tok =>
        simp only [htok] at h
        have htok2 : tl'[pos]? = some tok := by rw [← hag pos (by omega), htok]
        simp only [htok2]
        by_cases h1 : tok.token_type = TokenType.BRACKET
        · rw [if_pos h1] at h ⊢
          exact ihBracket pos e n h hag
        · rw [if_neg h1] at h ⊢
          by_cases h2 : tok.token_type = TokenType.DOT ∨ tok.token_type = TokenType.NUMBER
          · rw [if_pos h2] at h ⊢
            exact parse_number_read h hag
          · rw [if_neg h2] at h ⊢
            by_cases h3 : tok.token_type = TokenType.CONSTANT_OR_FUNCTION_NAME
            · rw [if_pos h3] at h ⊢
              exact ihConstFn pos e n h hag
            · rw [if_neg h3] at h ⊢
              by_cases h4 : tok.token_type = TokenType.SIGN
              · rw [if_pos h4] at h ⊢
                exact ihSign pos e n h hag
              · rw [if_neg h4] at h
                exact Except.noConfusion h
    · intro pos left e n h hag
      simp only [parse_second_priorityF] at h ⊢
      cases htok : tl[pos]? with
      | none => simp [htok] at h
      | some tok =>
        simp only [htok] at h
        cases hfp : parse_first_priorityF f tl (pos + 1) with
        | error e1 => simp [hfp] at h
        | ok pr =>
          obtain ⟨e1, n1⟩ := pr
          simp only [hfp, Except.ok.injEq, Prod.mk.injEq] at h
          obtain ⟨he, hn⟩ := h
          subst he
          subst hn
          have htok2 : tl'[pos]? = some tok := by rw [← hag pos (by omega), htok]
          have hfp2 := ihFirst (pos + 1) e1 n1 hfp (fun i hi => hag i (by omega))
          simp [htok2, hfp2]
    · intro pos cur cl e cl2 h hag
      have hmono := (parse_loopMonoAux tl (f + 1)).1 pos cur cl e cl2 h
      simp only [parse_third_loopF] at h ⊢
      by_cases hc : pos + cl + 1 < tl.length
      · rw [if_pos hc] at h
        rw [hlen, if_pos hc]
        cases hct : tl[cl + pos + 1]? with
        | none => simp [hct] at h
        | some ct =>
          simp only [hct] at h
          have hct2 : tl'[cl + pos + 1]? = some ct := by
            rw [← hag (cl + pos + 1) (by omega), hct]
          simp only [hct2]
          by_cases hty : ct.token_type = TokenType.SECOND_PRIORITY_OP
          · rw [if_pos hty] at h ⊢
            cases hsp : parse_second_priorityF f tl (cl + pos + 1) cur with
            | error e1 => simp [hsp] at h
            | ok pr =>
              obtain ⟨e2, n2⟩ := pr
              simp only [hsp] at h
              have hmono2 := (parse_loopMonoAux tl f).1 pos e2 (cl + n2) e cl2 h
              have hsp2 := ihSecond (cl + pos + 1) cur e2 n2 hsp
                (fun i hi => hag i (by omega))
              simp only [hsp2]
              exact ihThirdLoop pos e2 (cl + n2) e cl2 h hag
          · rw [if_neg hty] at h ⊢
            exact h
      · rw [if_neg hc] at h
        rw [hlen, if_neg hc]
        exact h
    · intro pos left e n h hag
      simp only [parse_third_priorityF] at h ⊢
      cases htok : tl[pos]? with
      | none => simp [htok] at h
      | some tok =>
        simp only [htok] at h
        cases hfp : parse_first_priorityF f tl (pos + 1) with
        | error e1 => simp [hfp] at h
        | ok pr =>
          obtain ⟨e1, n1⟩ := pr
          simp only [hfp] at h
          cases htlp : parse_third_loopF f tl pos e1 n1 with
          | error e1 => simp [htlp] at h
          | ok pr2 =>
            obtain ⟨e2, cl2⟩ := pr2
            simp only [htlp, Except.ok.injEq, Prod.mk.injEq] at h
            obtain ⟨he, hn⟩ := h
            subst he
            subst hn
            have hmono := (parse_loopMonoAux tl f).1 pos e1 n1 e2 cl2 htlp
            have htok2 : tl'[pos]? = some tok := by rw [← hag pos (by omega), htok]
            have hfp2 := ihFirst (pos + 1) e1 n1 hfp (fun i hi => hag i (by omega))
            have htlp2 := ihThirdLoop pos e1 n1 e2 cl2 htlp (fun i hi => hag i (by omega))
            simp [htok2, hfp2, htlp2]
    · intro pos cur cl e cl2 h hag
      have hmono := (parse_loopMonoAux tl (f + 1)).2 pos cur cl e cl2 h
      simp only [parse_expr_loopF] at h ⊢
      by_cases hc : pos + cl < tl.length
      · rw [if_pos hc] at h
        rw [hlen, if_pos hc]
        cases hct : tl[cl + pos]? with
        | none => simp [hct] at h
        | some ct =>
          simp only [hct] at h
          have hct2 : tl'[cl + pos]? = some ct := by
            rw [← hag (cl + pos) (by omega), hct]
          simp only [hct2]
          by_cases hty : ct.token_type = TokenType.THIRD_PRIORITY_OP
          · rw [if_pos hty] at h ⊢
            cases htp : parse_third_priorityF f tl (cl + pos) cur with
            | error e1 => simp [htp] at h
            | ok pr =>
              obtain ⟨e2, n2⟩ := pr
              simp only [htp] at h
              have hmono2 := (parse_loopMonoAux tl f).2 pos e2 (cl + n2) e cl2 h
              have htp2 := ihThird (cl + pos) cur e2 n2 htp (fun i hi => hag i (by omega))
              simp only [htp2]
              exact ihExprLoop pos e2 (cl + n2) e cl2 h hag
          · rw [if_neg hty] at h ⊢
            by_cases hty2 : ct.token_type = TokenType.SECOND_PRIORITY_OP
            · rw [if_pos hty2] at h ⊢
              cases hsp : parse_second_priorityF f tl (cl + pos) cur with
              | error e1 => simp [hsp] at h
              | ok pr =>
                obtain ⟨e2, n2⟩ := pr
                simp only [hsp] at h
                have hmono2 := (parse_loopMonoAux tl f).2 pos e2 (cl + n2) e cl2 h
                have hsp2 := ihSecond (cl + pos) cur e2 n2 hsp
                  (fun i hi => hag i (by omega))
                simp only [hsp2]
                exact ihExprLoop pos e2 (cl + n2) e cl2 h hag
            · rw [if_neg hty2] at h ⊢
              exact h
      · rw [if_neg hc] at h
        rw [hlen, if_neg hc]
        exact h
    · intro pos e n h hag
      simp only [parse_exprF] at h ⊢
      cases hfp : parse_first_priorityF f tl pos with
      | error e1 => simp [hfp] at h
      | ok pr =>
        obtain ⟨e1, n1⟩ := pr
        simp only [hfp] at h
        have hmono := (parse_loopMonoAux tl f).2 pos e1 n1 e n h
        have hfp2 := ihFirst pos e1 n1 hfp (fun i hi => hag i (by omega))
        simp only [hfp2]
        exact ihExprLoop pos e1 n1 e n h hag


/-!
Token-level grammar of a full well-formed expression, mirroring the grammar
of the spec: two operator tiers, unary sign, brackets, constants and
single-argument function calls.  The le hypotheses of the step constructors
record that a tail cursor only grows, which is provable but kept explicit so
derivations can be inverted without a mutual induction.
-/

mutual
/-- A well-formed first-priority term spanning positions [pos, pos + n);
the bracket and function-call forms require the matching right bracket. -/
inductive FirstSpan : List Token → Nat → Nat → Prop where
  | number (tl : List Token) (pos : Nat) (t : Token) :
      tl[pos]? = some t →
      (t.token_type = TokenType.DOT ∨ t.token_type = TokenType.NUMBER) →
      FirstSpan tl pos 1
  | constant (tl : List Token) (pos : Nat) (t : Token) :
      tl[pos]? = some t →
      t.token_type = TokenType.CONSTANT_OR_FUNCTION_NAME →
      (pos + 1 = tl.length ∨ ∃ u, tl[pos + 1]? = some u ∧ u.is_left_bracket = false) →
      FirstSpan tl pos 1
  | fncall (tl : List Token) (pos : Nat) (t u w : Token) (m : Nat) :
      tl[pos]? = some t →
      t.token_type = TokenType.CONSTANT_OR_FUNCTION_NAME →
      tl[pos + 1]? = some u → u.token_type = TokenType.BRACKET →
      u.is_left_bracket = true →
      ExprSpan tl (pos + 1 + 1) m →
      tl[pos + 1 + 1 + m]? = some w → w.token_type = TokenType.BRACKET →
      w.is_right_bracket = true →
      FirstSpan tl pos (m + 3)
  | bracket (tl : List Token) (pos : Nat) (t w : Token) (m : Nat) :
      tl[pos]? = some t → t.token_type = TokenType.BRACKET →
      t.is_left_bracket = true →
      ExprSpan tl (pos + 1) m →
      tl[pos + 1 + m]? = some w → w.token_type = TokenType.BRACKET →
      w.is_right_bracket = true →
      FirstSpan tl pos (m + 2)
  | sign (tl : List Token) (pos : Nat) (t : Token) (m : Nat) :
      tl[pos]? = some t → t.token_type = TokenType.SIGN →
      FirstSpan tl (pos + 1) m → FirstSpan tl pos (m + 1)

/-- A run of second-priority operator items continuing a third-priority
right operand, from cursor cl to cursor cl2 relative to base pos; done
requires what stops the loop of parse_third_priority. -/
inductive ThirdTailSpan : List Token → Nat → Nat → Nat → Prop where
  | done (tl : List Token) (pos cl : Nat) :
      (tl.length ≤ pos + cl + 1 ∨
        ∃ w, tl[cl + pos + 1]? = some w ∧
          w.token_type ≠ TokenType.SECOND_PRIORITY_OP) →
      ThirdTailSpan tl pos cl cl
  | step (tl : List Token) (pos cl cl2 : Nat) (w : Token) (m : Nat) :
      tl[cl + pos + 1]? = some w →
      w.token_type = TokenType.SECOND_PRIORITY_OP →
      FirstSpan tl (cl + pos + 1 + 1) m →
      cl + (m + 1) ≤ cl2 →
      ThirdTailSpan tl pos (cl + (m + 1)) cl2 →
      ThirdTailSpan tl pos cl cl2

/-- A run of binary operator items continuing a parsed operand, from cursor
cl to cursor cl2 relative to base pos; done requires what stops the loop of
parse_expr. -/
inductive ExprTailSpan : List Token → Nat → Nat → Nat → Prop where
  | done (tl : List Token) (pos cl : Nat) :
      (tl.length ≤ pos + cl ∨
        ∃ w, tl[cl + pos]? = some w ∧
          w.token_type ≠ TokenType.THIRD_PRIORITY_OP ∧
          w.token_type ≠ TokenType.SECOND_PRIORITY_OP) →
      ExprTailSpan tl pos cl cl
  | stepThird (tl : List Token) (pos cl cl2 clT : Nat) (w : Token) (m : Nat) :
      tl[cl + pos]? = some w →
      w.token_type = TokenType.THIRD_PRIORITY_OP →
      FirstSpan tl (cl + pos + 1) m →
      ThirdTailSpan tl (cl + pos) m clT →
      cl + (clT + 1) ≤ cl2 →
      ExprTailSpan tl pos (cl + (clT + 1)) cl2 →
      ExprTailSpan tl pos cl cl2
  | stepSecond (tl : List Token) (pos cl cl2 : Nat) (w : Token) (m : Nat) :
      tl[cl + pos]? = some w →
      w.token_type = TokenType.SECOND_PRIORITY_OP →
      FirstSpan tl (cl + pos + 1) m →
      cl + (m + 1) ≤ cl2 →
      ExprTailSpan tl pos (cl + (m + 1)) cl2 →
      ExprTailSpan tl pos cl cl2

/-- A well-formed expression spanning [pos, pos + n): one first-priority
term followed by operator items, self-delimited (done carries the stopping
condition). -/
inductive ExprSpan : List Token → Nat → Nat → Prop where
  | intro (tl : List Token) (pos m0 n : Nat) :
      FirstSpan tl pos m0 → ExprTailSpan tl pos m0 n → ExprSpan tl pos n
end

/-- Completeness of the parser on well-formed spans: with enough budget
(linear in the span, always below the canonical budget) each parse method
succeeds and consumes exactly its span. -/
lemma parse_completeAux (tl : List Token) :
    ∀ fuel : Nat,
      (∀ pos t m, tl[pos]? = some t → t.token_type = TokenType.SIGN →
        FirstSpan tl (pos + 1) m → 3 * (m + 1) + 3 ≤ fuel →
        ∃ e, parse_signF fuel tl pos = Except.ok (e, m + 1)) ∧
      (∀ pos t m, tl[pos]? = some t → t.token_type = TokenType.BRACKET →
        ExprSpan tl (pos + 1) m → 3 * (m + 2) + 3 ≤ fuel →
        ∃ e, parse_bracketF fuel tl pos = Except.ok (e, m + 2)) ∧
      (∀ pos t, tl[pos]? = some t →
        t.token_type = TokenType.CONSTANT_OR_FUNCTION_NAME →
        (pos + 1 = tl.length ∨ ∃ u, tl[pos + 1]? = some u ∧ u.is_left_bracket = false) →
        1 ≤ fuel →
        ∃ e, parse_constant_or_functionF fuel tl pos = Except.ok (e, 1)) ∧
      (∀ pos t u m, tl[pos]? = some t →
        t.token_type = TokenType.CONSTANT_OR_FUNCTION_NAME →
        tl[pos + 1]? = some u → u.token_type = TokenType.BRACKET →
        u.is_left_bracket = true → ExprSpan tl (pos + 1 + 1) m →
        3 * (m + 3) + 3 ≤ fuel →
        ∃ e, parse_constant_or_functionF fuel tl pos = Except.ok (e, m + 3)) ∧
      (∀ pos m, FirstSpan tl pos m → 3 * m + 4 ≤ fuel →
        ∃ e, parse_first_priorityF fuel tl pos = Except.ok (e, m)) ∧
      (∀ pos t m left, tl[pos]? = some t → FirstSpan tl (pos + 1) m →
        3 * (m + 1) + 3 ≤ fuel →
        ∃ e, parse_second_priorityF fuel tl pos left = Except.ok (e, m + 1)) ∧
      (∀ pos cl cl2 cur, ThirdTailSpan tl pos cl cl2 → 3 * (cl2 - cl) + 4 ≤ fuel →
        ∃ e, parse_third_loopF fuel tl pos cur cl = Except.ok (e, cl2)) ∧
      (∀ pos t m cl2 left, tl[pos]? = some t → FirstSpan tl (pos + 1) m →
        ThirdTailSpan tl pos m cl2 → 3 * (cl2 + 1) + 3 ≤ fuel →
        ∃ e, parse_third_priorityF fuel tl pos left = Except.ok (e, cl2 + 1)) ∧
      (∀ pos cl cl2 cur, ExprTailSpan tl pos cl cl2 → 3 * (cl2 - cl) + 4 ≤ fuel →
        ∃ e, parse_expr_loopF fuel tl pos cur cl = Except.ok (e, cl2)) ∧
      (∀ pos n, ExprSpan tl pos n → 3 * n + 5 ≤ fuel →
        ∃ e, parse_exprF fuel tl pos = Except.ok (e, n)) := by
  intro fuel
  induction fuel with
  | zero =>
    refine ⟨?_, ?_, ?_, ?_, ?_, ?_, ?_, ?_, ?_, ?_⟩
    · intro pos t m h1 h2 h3 hf; omega
    · intro pos t m h1 h2 h3 hf; omega
    · intro pos t h1 h2 h3 hf; omega
    · intro pos t u m h1 h2 h3 h4 h5 h6 hf; omega
    · intro pos m h1 hf; omega
    · intro pos t m left h1 h2 hf; omega
    · intro pos cl cl2 cur h1 hf; omega
    · intro pos t m cl2 left h1 h2 h3 hf; omega
    · intro pos cl cl2 cur h1 hf; omega
    · intro pos n h1 hf; omega
  | succ f ih =>
    obtain ⟨ihSign, ihBracket, ihCfnConst, ihCfnFn, ihFirst, ihSecond, ihTL, ihThird,
      ihEL, ihExpr⟩ := ih
    refine ⟨?_, ?_, ?_, ?_, ?_, ?_, ?_, ?_, ?_, ?_⟩
    · intro pos t m htok htype hspan hf
      obtain ⟨e1, he1⟩ := ihFirst (pos + 1) m hspan (by omega)
      refine ⟨BaseExpression.BinaryExpression (BaseExpression.NumberExpression ("0"))
        t.token_str e1, ?_⟩
      simp [parse_signF, htok, he1]
    · intro pos t m htok htype hspan hf
      obtain ⟨e1, he1⟩ := ihExpr (pos + 1) m hspan (by omega)
      refine ⟨e1, ?_⟩
      simp [parse_bracketF, htok, htype, he1]
    · intro pos t htok htype hcond hf
      rcases hcond with hend | ⟨u, hu, hulb⟩
      · refine ⟨BaseExpression.ConstantExpression t.token_str, ?_⟩
        simp [parse_constant_or_functionF, htok, hend]
      · have hne : pos + 1 ≠ tl.length := by
          have := lt_length_of_getElem? hu
          omega
        refine ⟨BaseExpression.ConstantExpression t.token_str, ?_⟩
        simp [parse_constant_or_functionF, htok, hne, hu, hulb]
    · intro pos t u m htok htype hu hub hulb hspan hf
      have hne : pos + 1 ≠ tl.length := by
        have := lt_length_of_getElem? hu
        omega
      obtain ⟨eb, heb⟩ := ihBracket (pos + 1) u m hu hub hspan (by omega)
      refine ⟨BaseExpression.FunctionExpression t.token_str eb, ?_⟩
      rw [show m + 3 = 1 + (m + 2) from by omega]
      simp [parse_constant_or_functionF, htok, hne, hu, hulb, heb]
    · intro pos m hspan hf
      cases hspan
      case number =>
        rename_i t htype htok
        refine ⟨BaseExpression.NumberExpression t.token_str, ?_⟩
        rcases htype with htype | htype <;>
          simp [parse_first_priorityF, parse_number, htok, htype]
      case constant =>
        rename_i t htype htok hcond
        obtain ⟨e0, he0⟩ := ihCfnConst pos t htok htype hcond (by omega)
        refine ⟨e0, ?_⟩
        simp [parse_first_priorityF, htok, htype, he0]
      case fncall =>
        rename_i t u w m2 htype hub hulb hwb hwr htok hu hspan2 hw
        obtain ⟨e0, he0⟩ := ihCfnFn pos t u m2 htok htype hu hub hulb hspan2 (by omega)
        refine ⟨e0, ?_⟩
        simp [parse_first_priorityF, htok, htype, he0]
      case bracket =>
        rename_i t w m2 htype htlb hwb hwr htok hspan2 hw
        obtain ⟨e0, he0⟩ := ihBracket pos t m2 htok htype hspan2 (by omega)
        refine ⟨e0, ?_⟩
        simp [parse_first_priorityF, htok, htype, he0]
      case sign =>
        rename_i t m2 htype htok hspan2
        obtain ⟨e0, he0⟩ := ihSign pos t m2 htok htype hspan2 (by omega)
        refine ⟨e0, ?_⟩
        simp [parse_first_priorityF, htok, htype, he0]
    · intro pos t m left htok hspan hf
      obtain ⟨e1, he1⟩ := ihFirst (pos + 1) m hspan (by omega)
      refine ⟨BaseExpression.BinaryExpression left t.token_str e1, ?_⟩
      simp [parse_second_priorityF, htok, he1]
    · intro pos cl cl2 cur hspan hf
      cases hspan
      case done =>
        rename_i hcond
        rcases hcond with hlen2 | ⟨w, hw, hwty⟩
        · refine ⟨cur, ?_⟩
          simp only [parse_third_loopF]
          rw [if_neg (show ¬(pos + cl + 1 < tl.length) from by omega)]
        · have hlt : pos + cl + 1 < tl.length := by
            have := lt_length_of_getElem? hw
            omega
          refine ⟨cur, ?_⟩
          simp only [parse_third_loopF]
          rw [if_pos hlt]
          simp [hw, hwty]
      case step =>
        rename_i w m hwty hw hspan2 hle hrest
        have hlt : pos + cl + 1 < tl.length := by
          have := lt_length_of_getElem? hw
          omega
        obtain ⟨e2, he2⟩ := ihSecond (cl + pos + 1) w m cur hw hspan2 (by omega)
        obtain ⟨e3, he3⟩ := ihTL pos (cl + (m + 1)) cl2 e2 hrest (by omega)
        refine ⟨e3, ?_⟩
        simp only [parse_third_loopF]
        rw [if_pos hlt]
        simp [hw, hwty, he2, he3]
    · intro pos t m cl2 left htok hspan htail hf
      have hm : m ≤ cl2 := by cases htail <;> omega
      obtain ⟨e1, he1⟩ := ihFirst (pos + 1) m hspan (by omega)
      obtain ⟨e2, he2⟩ := ihTL pos m cl2 e1 htail (by omega)
      refine ⟨BaseExpression.BinaryExpression left t.token_str e2, ?_⟩
      simp [parse_third_priorityF, htok, he1, he2]
    · intro pos cl cl2 cur hspan hf
      cases hspan
      case done =>
        rename_i hcond
        rcases hcond with hlen2 | ⟨w, hw, hwty3, hwty2⟩
        · refine ⟨cur, ?_⟩
          simp only [parse_expr_loopF]
          rw [if_neg (show ¬(pos + cl < tl.length) from by omega)]
        · have hlt : pos + cl < tl.length := by
            have := lt_length_of_getElem? hw
            omega
          refine ⟨cur, ?_⟩
          simp only [parse_expr_loopF]
          rw [if_pos hlt]
          simp [hw, hwty3, hwty2]
      case stepThird =>
        rename_i clT w m hwty hw hspan2 htail hle hrest
        have hlt : pos + cl < tl.length := by
          have := lt_length_of_getElem? hw
          omega
        obtain ⟨e3, he3⟩ := ihThird (cl + pos) w m clT cur hw hspan2 htail (by omega)
        obtain ⟨e4, he4⟩ := ihEL pos (cl + (clT + 1)) cl2 e3 hrest (by omega)
        refine ⟨e4, ?_⟩
        simp only [parse_expr_loopF]
        rw [if_pos hlt]
        simp [hw, hwty, he3, he4]
      case stepSecond =>
        rename_i w m hwty hw hspan2 hle hrest
        have hlt : pos + cl < tl.length := by
          have := lt_length_of_getElem? hw
          omega
        have hwty3 : w.token_type ≠ TokenType.THIRD_PRIORITY_OP := by
          rw [hwty]
          decide
        obtain ⟨e2, he2⟩ := ihSecond (cl + pos) w m cur hw hspan2 (by omega)
        obtain ⟨e4, he4⟩ := ihEL pos (cl + (m + 1)) cl2 e2 hrest (by omega)
        refine ⟨e4, ?_⟩
        simp only [parse_expr_loopF]
        rw [if_pos hlt]
        simp [hw, hwty3, hwty, he2, he4]
    · intro pos n hspan hf
      cases hspan
      case intro =>
        rename_i m0 hfirst htail
        have hm0 : m0 ≤ n := by cases htail <;> omega
        obtain ⟨e0, he0⟩ := ihFirst pos m0 hfirst (by omega)
        obtain ⟨e1, he1⟩ := ihEL pos m0 n e0 htail (by omega)
        refine ⟨e1, ?_⟩
        simp [parse_exprF, he0, he1]


/-- A first-priority span starts at a real token, so its start position is
in range. -/
lemma firstSpan_pos_lt {tl : List Token} {pos m : Nat} (h : FirstSpan tl pos m) :
    pos < tl.length := by
  cases h
  case number => rename_i t htype htok; exact lt_length_of_getElem? htok
  case constant => rename_i t htype htok hcond; exact lt_length_of_getElem? htok
  case fncall =>
    rename_i t u w m2 htype hub hulb hwb hwr htok hu hspan2 hw
    exact lt_length_of_getElem? htok
  case bracket =>
    rename_i t w m2 htype htlb hwb hwr htok hspan2 hw
    exact lt_length_of_getElem? htok
  case sign => rename_i t m2 htype htok hspan2; exact lt_length_of_getElem? htok

/-- C8 (amended): consumption invariants of every parse function.
(1) Lookahead is bounded by the boundary token: a successful parse reads no
token at an index above start + n — it may peek at exactly start + n, where
the loops look before stopping, which is the one place the claim is off —
so on a second token list of the same length agreeing up to index
start + n, every parse method returns the identical result.
(2) On a token list with no Bracket token — so that the unchecked
close-bracket accounting of parse_bracket cannot fire — start + n never
exceeds the list length; with brackets it can, as the counterexample shows.
(3) For a token list forming a full well-formed expression (ExprSpan over
the whole list), parse_expr at 0 succeeds and consumes exactly the total
token count, no fewer, no more. -/
theorem c8_parser_consumption_invariants :
    (∀ tl tl2 : List Token, tl2.length = tl.length →
      (∀ pos e n, parse_sign tl pos = Except.ok (e, n) →
        (∀ i, i ≤ pos + n → tl[i]? = tl2[i]?) → parse_sign tl2 pos = Except.ok (e, n)) ∧
      (∀ pos e n, parse_number tl pos = Except.ok (e, n) →
        (∀ i, i ≤ pos + n → tl[i]? = tl2[i]?) → parse_number tl2 pos = Except.ok (e, n)) ∧
      (∀ pos e n, parse_bracket tl pos = Except.ok (e, n) →
        (∀ i, i ≤ pos + n → tl[i]? = tl2[i]?) → parse_bracket tl2 pos = Except.ok (e, n)) ∧
      (∀ pos e n, parse_constant_or_function tl pos = Except.ok (e, n) →
        (∀ i, i ≤ pos + n → tl[i]? = tl2[i]?) →
        parse_constant_or_function tl2 pos = Except.ok (e, n)) ∧
      (∀ pos e n, parse_first_priority tl pos = Except.ok (e, n) →
        (∀ i, i ≤ pos + n → tl[i]? = tl2[i]?) →
        parse_first_priority tl2 pos = Except.ok (e, n)) ∧
      (∀ pos left e n, parse_second_priority tl pos left = Except.ok (e, n) →
        (∀ i, i ≤ pos + n → tl[i]? = tl2[i]?) →
        parse_second_priority tl2 pos left = Except.ok (e, n)) ∧
      (∀ pos left e n, parse_third_priority tl pos left = Except.ok (e, n) →
        (∀ i, i ≤ pos + n → tl[i]? = tl2[i]?) →
        parse_third_priority tl2 pos left = Except.ok (e, n)) ∧
      (∀ pos e n, parse_expr tl pos = Except.ok (e, n) →
        (∀ i, i ≤ pos + n → tl[i]? = tl2[i]?) → parse_expr tl2 pos = Except.ok (e, n))) ∧
    (∀ tl : List Token, NoBrackets tl →
      (∀ pos e n, parse_sign tl pos = Except.ok (e, n) → pos + n ≤ tl.length) ∧
      (∀ pos e n, parse_number tl pos = Except.ok (e, n) → pos + n ≤ tl.length) ∧
      (∀ pos e n, parse_bracket tl pos = Except.ok (e, n) → pos + n ≤ tl.length) ∧
      (∀ pos e n, parse_constant_or_function tl pos = Except.ok (e, n) →
        pos + n ≤ tl.length) ∧
      (∀ pos e n, parse_first_priority tl pos = Except.ok (e, n) → pos + n ≤ tl.length) ∧
      (∀ pos left e n, parse_second_priority tl pos left = Except.ok (e, n) →
        pos + n ≤ tl.length) ∧
      (∀ pos left e n, parse_third_priority tl pos left = Except.ok (e, n) →
        pos + n ≤ tl.length) ∧
      (∀ pos e n, parse_expr tl pos = Except.ok (e, n) → pos + n ≤ tl.length)) ∧
    (∀ tl : List Token, ExprSpan tl 0 tl.length →
      ∃ e, parse_expr tl 0 = Except.ok (e, tl.length)) := by
  refine ⟨?_, ?_, ?_⟩
  · intro tl tl2 hlen
    have R := parse_readAux tl tl2 hlen (parseFuel tl)
    have hpf : parseFuel tl2 = parseFuel tl := by simp [parseFuel, hlen]
    refine ⟨?_, ?_, ?_, ?_, ?_, ?_, ?_, ?_⟩
    · intro pos e n h hag
      unfold parse_sign at h ⊢
      rw [hpf]
      exact R.1 pos e n h hag
    · intro pos e n h hag
      exact parse_number_read h hag
    · intro pos e n h hag
      unfold parse_bracket at h ⊢
      rw [hpf]
      exact R.2.1 pos e n h hag
    · intro pos e n h hag
      unfold parse_constant_or_function at h ⊢
      rw [hpf]
      exact R.2.2.1 pos e n h hag
    · intro pos e n h hag
      unfold parse_first_priority at h ⊢
      rw [hpf]
      exact R.2.2.2.1 pos e n h hag
    · intro pos left e n h hag
      unfold parse_second_priority at h ⊢
      rw [hpf]
      exact R.2.2.2.2.1 pos left e n h hag
    · intro pos left e n h hag
      unfold parse_third_priority at h ⊢
      rw [hpf]
      exact R.2.2.2.2.2.2.1 pos left e n h hag
    · intro pos e n h hag
      unfold parse_expr at h ⊢
      rw [hpf]
      exact R.2.2.2.2.2.2.2.2 pos e n h hag
  · intro tl hNB
    have B := parse_boundAux tl hNB (parseFuel tl)
    refine ⟨?_, ?_, ?_, ?_, ?_, ?_, ?_, ?_⟩
    · intro pos e n h
      unfold parse_sign at h
      exact B.1 pos e n h
    · intro pos e n h
      exact parse_number_bound h
    · intro pos e n h
      unfold parse_bracket at h
      exact B.2.1 pos e n h
    · intro pos e n h
      unfold parse_constant_or_function at h
      exact B.2.2.1 pos e n h
    · intro pos e n h
      unfold parse_first_priority at h
      exact B.2.2.2.1 pos e n h
    · intro pos left e n h
      unfold parse_second_priority at h
      exact B.2.2.2.2.1 pos left e n h
    · intro pos left e n h
      unfold parse_third_priority at h
      exact B.2.2.2.2.2.2.1 pos left e n h
    · intro pos e n h
      unfold parse_expr at h
      exact B.2.2.2.2.2.2.2.2 pos e n h
  · intro tl hspan
    have hlen1 : 0 < tl.length := by
      cases hspan
      case intro =>
        rename_i m0 hfirst htail
        exact firstSpan_pos_lt hfirst
    unfold parse_expr
    exact (parse_completeAux tl (parseFuel tl)).2.2.2.2.2.2.2.2.2 0 tl.length hspan
      (by simp only [parseFuel]; omega)

/-- Witness for C8: part one at the equal-length token lists of "1+2)9" and
"1+2)*", which agree up to the boundary index 3 of the parse of the first;
part two at the bracket-free token list of "1+2", fully consumed; part
three at the well-formed bracketed token list of "(1)", with its span
derivation supplied explicitly. -/
theorem c8_witness :
    parse_expr (lex ("1+2)*")) 0 =
      Except.ok (BaseExpression.BinaryExpression (BaseExpression.NumberExpression ("1"))
        ("+") (BaseExpression.NumberExpression ("2")), 3) ∧
    0 + 3 ≤ (lex ("1+2")).length ∧
    (∃ e, parse_expr (lex ("(1)")) 0 = Except.ok (e, (lex ("(1)")).length)) := by
  refine ⟨?_, ?_, ?_⟩
  · exact (c8_parser_consumption_invariants.1 (lex ("1+2)9")) (lex ("1+2)*"))
      (by decide)).2.2.2.2.2.2.2 0
      (BaseExpression.BinaryExpression (BaseExpression.NumberExpression ("1")) ("+")
        (BaseExpression.NumberExpression ("2"))) 3
      (by with_unfolding_all rfl)
      (by intro i hi; interval_cases i <;> decide)
  · exact (c8_parser_consumption_invariants.2.1 (lex ("1+2"))
      (by unfold NoBrackets; decide)).2.2.2.2.2.2.2 0
      (BaseExpression.BinaryExpression (BaseExpression.NumberExpression ("1")) ("+")
        (BaseExpression.NumberExpression ("2"))) 3
      (by with_unfolding_all rfl)
  · refine c8_parser_consumption_invariants.2.2 (lex ("(1)")) ?_
    rw [(show ((lex ("(1)")).length) = 3 from by decide)]
    refine ExprSpan.intro (lex ("(1)")) 0 3 3 ?_ ?_
    · refine FirstSpan.bracket (lex ("(1)")) 0 (Token.mk ("(") TokenType.BRACKET)
        (Token.mk (")") TokenType.BRACKET) 1 (by decide) (by decide) (by decide) ?_
        (by decide) (by decide) (by decide)
      refine ExprSpan.intro (lex ("(1)")) 1 1 1 ?_ ?_
      · exact FirstSpan.number (lex ("(1)")) 1 (Token.mk ("1") TokenType.NUMBER)
          (by decide) (Or.inr (by decide))
      · exact ExprTailSpan.done (lex ("(1)")) 1 1
          (Or.inr ⟨Token.mk (")") TokenType.BRACKET, by decide, by decide, by decide⟩)
    · exact ExprTailSpan.done (lex ("(1)")) 0 3 (Or.inl (by decide))

end Calculator
